import Mathlib

/-!
Verification development for the batching core of
`src/packages/core/src/batch/AbstractBatchRenderer.js`.

The JavaScript class `AbstractBatchRenderer` is embedded shallowly: the
mutable renderer object becomes the record `PixiBatch.RState`, each method
becomes a function `RState → ... → RState`, `for` loops become fuel-indexed
structural recursions (the fuel is the loop's trip count, so every
definition reduces inside the kernel), and JS numbers become `Nat`/`Int`/`ℚ`
with the 32-bit / 16-bit wrap-arounds written out explicitly where the code
stores into typed arrays.

Scalar values (vertex positions, uvs, alphas) are modelled as `ℚ`; the
floating-point rounding of IEEE doubles is not modelled, which is irrelevant
to the claims checked here (they concern control flow, counts, cursors and
integer packing).

Helpers that live elsewhere in the pixi.js repository (`@pixi/utils`,
`BatchSystem`) are not under `src/`; those definitions are modelled from the
spec and are marked as such in their doc comments.
-/

set_option maxHeartbeats 1000000

namespace PixiBatch

/-- JS `ToInt32` of an integral quantity: wrap into `[-2^31, 2^31)`. -/
def toInt32 (x : ℤ) : ℤ := (x + 2 ^ 31) % 2 ^ 32 - 2 ^ 31

/-- JS `ToUint32` of an integral quantity: wrap into `[0, 2^32)`. -/
def toUint32 (x : ℤ) : ℤ := x % 2 ^ 32

/-- JS `a << n` for an integral `a`: both the input and the result are
wrapped to signed 32 bits. -/
def jsShl (a : ℤ) (n : Nat) : ℤ := toInt32 (toInt32 a * 2 ^ n)

/-- Fuel-indexed helper for `nextPow2` (the fuel keeps the recursion
structural, hence kernel-reducible; fuel `n` is always sufficient). -/
def pow2Ge : Nat → Nat → Nat
  | 0, _ => 1
  | f + 1, n => if n ≤ 1 then 1 else 2 * pow2Ge f ((n + 1) / 2)

/-- Modelled from the spec: `nextPow2` from `@pixi/utils` is not under
`src/`.  Per the spec (§4.5) the buffer pool is "keyed by the smallest
power-of-two block ≥ the requested capacity"; this returns that smallest
power of two (and `1` for input `0`, matching the utility's documented
behaviour on zero). -/
def nextPow2 (n : Nat) : Nat := pow2Ge n n

/-- Fuel-indexed helper for `log2i`. -/
def log2Fuel : Nat → Nat → Nat
  | 0, _ => 0
  | f + 1, n => if n ≤ 1 then 0 else log2Fuel f (n / 2) + 1

/-- Modelled from the spec: `log2` from `@pixi/utils` is not under `src/`.
It is only ever applied to the power of two returned by `nextPow2`, where it
is the exact base-2 logarithm. -/
def log2i (n : Nat) : Nat := log2Fuel n n

/-- Modelled from the spec: `premultiplyTint` from `@pixi/utils` is not
under `src/`.  Per the spec (§4.4) "alpha-premultiply must recompute RGB
channels, not just scale alpha": each 8-bit channel of the packed RGB tint
is scaled by `alpha` (rounded to nearest) and the alpha byte is set to
`alpha * 255`. -/
def premultiplyTint (tint : Nat) (alpha : ℚ) : Nat :=
  let R : Nat := tint / 2 ^ 16 % 2 ^ 8
  let G : Nat := tint / 2 ^ 8 % 2 ^ 8
  let B : Nat := tint % 2 ^ 8
  let r : Nat := (⌊(R : ℚ) * alpha + 1 / 2⌋).toNat
  let g : Nat := (⌊(G : ℚ) * alpha + 1 / 2⌋).toNat
  let b : Nat := (⌊(B : ℚ) * alpha + 1 / 2⌋).toNat
  (⌊alpha * 255⌋).toNat * 2 ^ 24 + r * 2 ^ 16 + g * 2 ^ 8 + b

/-- The transient, per-texture fields the renderer reads and writes:
`Texture.valid` together with the base texture's `alphaMode`,
`_batchEnabled` (last-seen batch tick), `_batchLocation` (assigned sampler
slot) and `touched` (GC counter).  The `Texture` / `BaseTexture` pair is
flattened into one record keyed by texture identity. -/
structure TexInfo where
  valid : Bool := true
  alphaMode : Nat := 0
  batchEnabled : Nat := 0
  batchLocation : Nat := 0
  touched : Nat := 0
deriving Repr, DecidableEq, Inhabited

/-- Texture identities to their mutable fields (JS mutates the texture
objects in place; here the whole table is passed functionally). -/
def TexMap := Nat → TexInfo

instance : Inhabited TexMap := ⟨fun _ => default⟩

/-- One batchable display object, with exactly the fields
`AbstractBatchRenderer` reads: `vertexData`, `uvs`, `indices`,
`worldAlpha`, `_tintRGB`, `blendMode` and the texture reference
(`_texture`, by identity). -/
structure Element where
  vertexData : List ℚ := []
  uvs : List ℚ := []
  indices : List Nat := []
  worldAlpha : ℚ := 1
  tintRGB : Nat := 0
  blendMode : Nat := 0
  texId : Nat := 0
deriving Repr, DecidableEq, Inhabited

/-- One cell of the interleaved attribute scratch buffer: the code writes
through either the `float32View` (`f`) or the `uint32View` (`u`) of the same
underlying bytes; a cell remembers which view wrote it. -/
inductive AttrVal where
  | f (q : ℚ)
  | u (n : Nat)
deriving Repr, DecidableEq

/-- A pooled `BatchDrawCall` (its constructor zero-initialises the fields;
`type` is constantly `TRIANGLES` and is omitted).  `texArrayId` is the index
of the `BatchTextureArray` in the renderer's pool. -/
structure DrawCall where
  texArrayId : Nat := 0
  blend : ℤ := 0
  start : Nat := 0
  size : Nat := 0
deriving Repr, DecidableEq, Inhabited

/-- A pooled `BatchTextureArray`: `count` live entries in `elems`
(slots `0 .. count-1`); stale entries beyond `count` are never read. -/
structure TexArray where
  count : Nat := 0
  elems : Nat → Nat := fun _ => 0
deriving Inhabited

/-- A pooled scratch buffer: `id` is the allocation identity (used to state
"the same backing object"), `cap` its capacity — in floats for attribute
buffers (`ViewableBuffer(bytes/4)`), in 16-bit slots for index buffers. -/
structure Buf where
  id : Nat := 0
  cap : Nat := 0
deriving Repr, DecidableEq, Inhabited

/-- The renderer state: the fields of `AbstractBatchRenderer` that the
batching logic reads or writes, plus the external inputs it consults
(`pbm` = the `premultiplyBlendMode` table, `touchCount` =
`renderer.textureGC.count`) and an observable `drawLog` recording each
`gl.drawElements` issued by `drawBatches`.  The attribute/index scratch
contents written during the current flush are kept as the lists
`attrData` / `indexData`; both cursors are reset to `0` exactly when the
lists are reset, so `aIndex` / `iIndex` always point one past the last
write, as in the source. -/
structure RState where
  /-- `this.MAX_TEXTURES`. -/
  MAX_TEXTURES : Nat := 1
  /-- `this.size`: maximum buffered vertex capacity. -/
  size : Nat := 16384
  /-- `this.vertexSize` (6 for the default batch plugin). -/
  vertexSize : Nat := 6
  /-- The `premultiplyBlendMode` lookup from `@pixi/utils` (not under
  `src/`); modelled from the spec as an arbitrary fixed table indexed by
  `[alphaMode][blendMode]`. -/
  pbm : Nat → Nat → Nat := fun _ b => b
  vertexCount : Nat := 0
  indexCount : Nat := 0
  bufferedElements : Nat → Element := fun _ => default
  bufferedTextures : Nat → Nat := fun _ => 0
  bufferSize : Nat := 0
  texs : TexMap := fun _ => {}
  /-- `BaseTexture._globalBatch`. -/
  globalBatch : Nat := 0
  /-- `renderer.textureGC.count` (external). -/
  touchCount : Nat := 0
  drawCalls : Nat → DrawCall := fun _ => default
  textureArrays : Nat → TexArray := fun _ => default
  aBuffers : Nat → Option Buf := fun _ => none
  iBuffers : Nat → Option Buf := fun _ => none
  /-- Allocation counter giving pool buffers their identity. -/
  nextBufId : Nat := 0
  dcIndex : Nat := 0
  aIndex : Nat := 0
  iIndex : Nat := 0
  attrData : List AttrVal := []
  indexData : List Nat := []
  /-- `this._attributeBuffer` (null modelled as the zero buffer). -/
  attributeBuffer : Buf := default
  /-- `this._indexBuffer`. -/
  indexBuffer : Buf := default
  drawLog : List DrawCall := []

/-- The packed 32-bit colour of one element, from `packInterleavedGeometry`:
`alpha = Math.min(worldAlpha, 1.0)`, then
`(alpha < 1.0 && alphaMode) ? premultiplyTint(_tintRGB, alpha)
 : _tintRGB + (alpha * 255 << 24)` as stored through the `uint32View`. -/
def packedColor (alphaMode : Nat) (tintRGB : Nat) (worldAlpha : ℚ) : Nat :=
  let alpha := min worldAlpha 1
  if alpha < 1 ∧ alphaMode ≠ 0 then
    premultiplyTint tintRGB alpha
  else
    (toUint32 ((tintRGB : ℤ) + jsShl ⌊alpha * 255⌋ 24)).toNat

/-- The inner vertex loop of `packInterleavedGeometry`: for each step of
`i += 2` below `vertexData.length` it writes
`vertexData[i], vertexData[i+1], uvs[i], uvs[i+1], argb, _batchLocation`.
`p` is the trip count `⌈vertexData.length / 2⌉`; out-of-range reads (which
JS would give as `undefined`) default to `0`. -/
def packVertexLoop (argb : Nat) (loc : Nat) (vd uvs : List ℚ) : Nat → Nat → List AttrVal
  | 0, _ => []
  | p + 1, i =>
    AttrVal.f (vd.getD i 0) :: AttrVal.f (vd.getD (i + 1) 0) ::
    AttrVal.f (uvs.getD i 0) :: AttrVal.f (uvs.getD (i + 1) 0) ::
    AttrVal.u argb :: AttrVal.f (loc : ℚ) ::
    packVertexLoop argb loc vd uvs p (i + 2)

/-- Mutable loop state of `packInterleavedGeometry`: the two cursors plus
the scratch contents written so far this flush. -/
structure FlushBufs where
  aIndex : Nat
  iIndex : Nat
  attrData : List AttrVal
  indexData : List Nat
deriving Repr, DecidableEq

/-- The element loop of `packInterleavedGeometry` over `fuel` consecutive
elements starting at position `j`; `pv` is the running `packedVertices`
count.  Indices are remapped by `pv` and stored through a `Uint16Array`,
hence the wrap modulo `2^16`. -/
def packLoop (texs : TexMap) (elems : Nat → Element) : Nat → Nat → Nat → FlushBufs → FlushBufs
  | 0, _, _, b => b
  | fuel + 1, j, pv, b =>
    let e := elems j
    let info := texs e.texId
    let argb := packedColor info.alphaMode e.tintRGB e.worldAlpha
    let verts := packVertexLoop argb info.batchLocation e.vertexData e.uvs
      ((e.vertexData.length + 1) / 2) 0
    let remapped := e.indices.map (fun ix => (pv + ix) % 2 ^ 16)
    packLoop texs elems fuel (j + 1) (pv + e.vertexData.length / 2)
      ⟨b.aIndex + verts.length, b.iIndex + remapped.length,
       b.attrData ++ verts, b.indexData ++ remapped⟩

/-- The pure payload of the element loop of `packInterleavedGeometry`: the
attribute cells and remapped indices it appends for `fuel` consecutive
elements starting at position `j` with running vertex count `pv`
(`packLoop` is proved equal to appending this payload). -/
def packedCells (texs : TexMap) (elems : Nat → Element) : Nat → Nat → Nat → List AttrVal × List Nat
  | 0, _, _ => ([], [])
  | fuel + 1, j, pv =>
    let e := elems j
    let info := texs e.texId
    let argb := packedColor info.alphaMode e.tintRGB e.worldAlpha
    let verts := packVertexLoop argb info.batchLocation e.vertexData e.uvs
      ((e.vertexData.length + 1) / 2) 0
    let remapped := e.indices.map (fun ix => (pv + ix) % 2 ^ 16)
    let rest := packedCells texs elems fuel (j + 1) (pv + e.vertexData.length / 2)
    (verts ++ rest.1, remapped ++ rest.2)

/-- The scratch-buffer contents and cursors produced by running the element
loop of `packInterleavedGeometry(start, finish)` on state `s`
(`packedVertices` starts at `aIndex / vertexSize`). -/
def packBufs (s : RState) (start finish : Nat) : FlushBufs :=
  packLoop s.texs s.bufferedElements (finish - start) start
    (s.aIndex / s.vertexSize) ⟨s.aIndex, s.iIndex, s.attrData, s.indexData⟩

/-- `packInterleavedGeometry(start, finish)`: packs the buffered elements
`start ≤ j < finish` at the current cursors.  (The source also nulls each
packed `_bufferedElements[j]`; the nulled entries are never read again
because the packed sub-ranges of one flush are disjoint and `render`
overwrites slots before the next flush reads them, so the nulling is not
modelled.) -/
def packInterleavedGeometry (s : RState) (start finish : Nat) : RState :=
  let b := packBufs s start finish
  { s with aIndex := b.aIndex, iIndex := b.iIndex,
           attrData := b.attrData, indexData := b.indexData }

/-- Write `drawCalls[k] := dc` (assignment through a pooled reference). -/
def setDC (s : RState) (k : Nat) (dc : DrawCall) : RState :=
  { s with drawCalls := Function.update s.drawCalls k dc }

/-- Write the transient fields of texture `t`. -/
def setTex (s : RState) (t : Nat) (info : TexInfo) : RState :=
  { s with texs := Function.update s.texs t info }

/-- Write `textureArrays[k] := ta` (assignment through a pooled reference). -/
def setTA (s : RState) (k : Nat) (ta : TexArray) : RState :=
  { s with textureArrays := Function.update s.textureArrays k ta }

/-- The effective (sprite) blend mode computed inside `buildDrawCalls`:
`premultiplyBlendMode[tex.alphaMode ? 1 : 0][sprite.blendMode]`, as an `ℤ`
so that it can be compared against the `-1` sentinel. -/
def effBlend (s : RState) (i : Nat) : ℤ :=
  let e := s.bufferedElements i
  (s.pbm (if (s.texs e.texId).alphaMode ≠ 0 then 1 else 0) e.blendMode : ℤ)

/-- The `for (let i = start; i < finish; ++i)` loop of `buildDrawCalls`,
with trip-count fuel.  Locals: `i` (loop index), `localStart` (the loop's
mutable `start`), `dcIndex`.  The current `drawCall` is the reference
`drawCalls[dcIndex]`, so every field assignment writes through the pool. -/
def buildDCLoop (texA : Nat) : Nat → Nat → Nat → Nat → RState → RState × Nat × Nat
  | 0, _, localStart, dcIndex, s => (s, localStart, dcIndex)
  | fuel + 1, i, localStart, dcIndex, s =>
    let sbm := effBlend s i
    let dc := s.drawCalls dcIndex
    if localStart > i ∧ dc.blend ≠ sbm then
      -- drawCall.start = iIndex; pack [localStart, i); drawCall.size; next slot
      let s1 := setDC s dcIndex { dc with start := s.iIndex }
      let s2 := packInterleavedGeometry s1 localStart i
      let s3 := setDC s2 dcIndex
        { s2.drawCalls dcIndex with size := s2.iIndex - (s2.drawCalls dcIndex).start }
      let s4 := setDC s3 (dcIndex + 1) { s3.drawCalls (dcIndex + 1) with texArrayId := texA }
      let s5 := setDC s4 (dcIndex + 1) { s4.drawCalls (dcIndex + 1) with blend := sbm }
      buildDCLoop texA fuel (i + 1) i (dcIndex + 1) s5
    else
      buildDCLoop texA fuel (i + 1) localStart dcIndex (setDC s dcIndex { dc with blend := sbm })

/-- `buildDrawCalls(texArray, start, finish)`.  Faithful to the source,
including its guards exactly as written: the split guard inside the loop
reads `start > i`, and the trailing guard reads `drawCall.start < finish`
(`drawCall.start` being whatever the pooled `BatchDrawCall` last held). -/
def buildDrawCalls (s : RState) (texA : Nat) (start finish : Nat) : RState :=
  let dcIndex := s.dcIndex
  let s0 := setDC s dcIndex { s.drawCalls dcIndex with texArrayId := texA, blend := -1 }
  match buildDCLoop texA (finish - start) start start dcIndex s0 with
  | (s1, localStart, dcIndex1) =>
    let dc := s1.drawCalls dcIndex1
    if dc.start < finish then
      let s2 := setDC s1 dcIndex1 { dc with start := s1.iIndex }
      let s3 := packInterleavedGeometry s2 localStart finish
      let s4 := setDC s3 dcIndex1
        { s3.drawCalls dcIndex1 with size := s3.iIndex - (s3.drawCalls dcIndex1).start }
      { s4 with dcIndex := dcIndex1 + 1 }
    else
      { s1 with dcIndex := dcIndex1 }

/-- Slot-assignment loop of `boundArray`. -/
def boundArrayLoop (taElems : Nat → Nat) : Nat → Nat → RState → RState
  | 0, _, s => s
  | fuel + 1, j, s =>
    let tid := taElems j
    boundArrayLoop taElems fuel (j + 1) (setTex s tid { s.texs tid with batchLocation := j })

/-- Modelled from the spec: `renderer.batch.boundArray` (`BatchSystem`, not
under `src/`) finalises a closed texture-array group, assigning each of its
textures a sampler slot and stamping `_batchLocation`.  The spec (§9) leaves
the rebind-minimising tie-break implementation-sensitive, so slots are
assigned positionally; no claim depends on the particular slot values.  The
group's `ids` array is GPU-binding bookkeeping and is not modelled. -/
def boundArray (s : RState) (ta : Nat) : RState :=
  boundArrayLoop (s.textureArrays ta).elems (s.textureArrays ta).count 0 s

/-- The loop tail of the texture walk (source lines: stamp the texture with
the current tick and GC counter, then append it to the active group):
`tex._batchEnabled = TICK; tex.touched = touch;
 texArray.elements[texArray.count++] = tex`. -/
def stampAndAppend (s : RState) (texId tick cta : Nat) : RState :=
  let s2 := setTex s texId
    { s.texs texId with batchEnabled := tick, touched := s.touchCount }
  let ta := s2.textureArrays cta
  setTA s2 cta { count := ta.count + 1, elems := Function.update ta.elems ta.count texId }

/-- The element walk of `buildTexturesAndDrawCalls`, with trip-count fuel.
Locals: `i` (loop index), `tick` (the local `TICK`), `cta`
(`countTexArrays`), `start`.  Returns the state plus the final
`(tick, cta, start)`. -/
def btLoop : Nat → Nat → Nat → Nat → Nat → RState → RState × Nat × Nat × Nat
  | 0, _, tick, cta, start, s => (s, tick, cta, start)
  | fuel + 1, i, tick, cta, start, s =>
    let texId := s.bufferedTextures i
    if (s.texs texId).batchEnabled = tick then
      btLoop fuel (i + 1) tick cta start s
    else if (s.textureArrays cta).count ≥ s.MAX_TEXTURES then
      -- close the full group, start a new group with the tick advanced,
      -- then fall through to the shared stamp-and-append tail
      let sB := buildDrawCalls (boundArray s cta) cta start i
      btLoop fuel (i + 1) (tick + 1) (cta + 1) i
        (stampAndAppend sB texId (tick + 1) (cta + 1))
    else
      btLoop fuel (i + 1) tick cta start (stampAndAppend s texId tick cta)

/-- `buildTexturesAndDrawCalls()`.  `TICK = ++BaseTexture._globalBatch` is
kept local during the walk and written back at the end, as in the source.
(`batch.copyBoundTextures` only snapshots currently-bound GPU texture units
for the rebind heuristic and is external GPU bookkeeping; it is not
modelled.) -/
def buildTexturesAndDrawCalls (s : RState) : RState :=
  let tick0 := s.globalBatch + 1
  match btLoop s.bufferSize 0 tick0 0 0 s with
  | (s1, tick1, cta1, start1) =>
    if (s1.textureArrays cta1).count > 0 then
      let s2 := boundArray s1 cta1
      let s3 := buildDrawCalls s2 cta1 start1 s1.bufferSize
      { s3 with globalBatch := tick1 + 1 }
    else
      { s1 with globalBatch := tick1 }

/-- `bindAndClearTexArray(texArray)`: binds every texture of the group to
the GPU (external) and resets the group's `count` to `0`.  (The source also
nulls the `elements` entries; entries at positions `≥ count` are never
read, so only the count reset is modelled.) -/
def bindAndClearTexArray (s : RState) (ta : Nat) : RState :=
  setTA s ta { s.textureArrays ta with count := 0 }

/-- The loop of `drawBatches` over `drawCalls[0 .. dcIndex)`: re-binds (and
clears) the texture array only when it differs from the previous draw
call's, then issues one `gl.drawElements` per draw call — recorded in
`drawLog`. -/
def drawBatchesLoop : Nat → Nat → Option Nat → RState → RState
  | 0, _, _, s => s
  | fuel + 1, i, cur, s =>
    let dc := s.drawCalls i
    let bound := if cur ≠ some dc.texArrayId then
        (bindAndClearTexArray s dc.texArrayId, some dc.texArrayId)
      else (s, cur)
    match bound with
    | (s1, cur1) =>
      drawBatchesLoop fuel (i + 1) cur1 { s1 with drawLog := s1.drawLog ++ [dc] }

/-- `drawBatches()`. -/
def drawBatches (s : RState) : RState := drawBatchesLoop s.dcIndex 0 none s

/-- `getAttributeBuffer(size)`: size-class pool keyed by
`nextPow2(ceil(size / 8)) * 8` vertex records; a miss allocates a
`ViewableBuffer` of `roundedSize * vertexSize * 4` bytes, i.e.
`roundedSize * vertexSize` floats.  (The source's
`if (this._aBuffers.length <= roundedSizeIndex)` guard compares the
`undefined` `length` property of a plain object and can never fire, so it
has no modelled effect.) -/
def getAttributeBuffer (s : RState) (size : Nat) : Buf × RState :=
  let roundedP2 := nextPow2 ((size + 7) / 8)
  let roundedSize := roundedP2 * 8
  match s.aBuffers roundedSize with
  | some b => (b, s)
  | none =>
    let b : Buf := { id := s.nextBufId, cap := roundedSize * s.vertexSize }
    (b, { s with aBuffers := Function.update s.aBuffers roundedSize (some b),
                 nextBufId := s.nextBufId + 1 })

/-- `getIndexBuffer(size)`: size-class pool keyed by
`log2(nextPow2(ceil(size / 12)))`; a miss allocates a `Uint16Array` of
`roundedSize = nextPow2(ceil(size / 12)) * 12` entries.  (As above, the
`_iBuffers.length` guard compares `undefined` and never fires.) -/
def getIndexBuffer (s : RState) (size : Nat) : Buf × RState :=
  let roundedP2 := nextPow2 ((size + 11) / 12)
  let roundedSizeIndex := log2i roundedP2
  let roundedSize := roundedP2 * 12
  match s.iBuffers roundedSizeIndex with
  | some b => (b, s)
  | none =>
    let b : Buf := { id := s.nextBufId, cap := roundedSize }
    (b, { s with iBuffers := Function.update s.iBuffers roundedSizeIndex (some b),
                 nextBufId := s.nextBufId + 1 })

/-- `flush()`: no-op when `_vertexCount === 0`; otherwise acquire scratch
buffers, zero the session cursors, build texture groups and draw calls
(which packs the geometry), issue the draw calls, and reset the element
buffer.  (`updateGeometry` only uploads the packed bytes to a GPU geometry
object — pure external I/O — and is not modelled.) -/
def flush (s : RState) : RState :=
  if s.vertexCount = 0 then s
  else
    match getAttributeBuffer s s.vertexCount with
    | (ab, sa) =>
      match getIndexBuffer sa s.indexCount with
      | (ib, sb) =>
        let s3 := { sb with attributeBuffer := ab, indexBuffer := ib,
                            aIndex := 0, iIndex := 0, dcIndex := 0,
                            attrData := [], indexData := [] }
        let s4 := buildTexturesAndDrawCalls s3
        let s5 := drawBatches s4
        { s5 with bufferSize := 0, vertexCount := 0, indexCount := 0 }

/-- `render(element)` (the submit path): silently drop elements whose
texture is not `valid`; flush first if buffering this element's vertices
would exceed `this.size`; then append the element and its base texture to
the parallel buffers and update the running totals. -/
def render (s : RState) (e : Element) : RState :=
  if ¬ (s.texs e.texId).valid then s
  else
    let s1 := if s.vertexCount + e.vertexData.length / 2 > s.size then flush s else s
    { s1 with
      vertexCount := s1.vertexCount + e.vertexData.length / 2,
      indexCount := s1.indexCount + e.indices.length,
      bufferedTextures := Function.update s1.bufferedTextures s1.bufferSize e.texId,
      bufferedElements := Function.update s1.bufferedElements s1.bufferSize e,
      bufferSize := s1.bufferSize + 1 }

/-! ### Spec-side definitions and concrete scenarios -/

/-- Spec-side definition, following the claim's words: the number of maximal
runs of consecutive equal values in a list (of effective blend modes). -/
def runCount : List ℤ → Nat
  | [] => 0
  | [_] => 1
  | a :: b :: rest => (if a = b then 0 else 1) + runCount (b :: rest)

/-- The effective blend modes of the buffered elements `start ≤ i < finish`,
in submission order. -/
def effBlendList (s : RState) (start finish : Nat) : List ℤ :=
  (List.range' start (finish - start)).map (effBlend s)

/-- Sum of `w` over the positions `a, a + 1, ..., a + n - 1`. -/
def Wsum (w : Nat → Nat) (a n : Nat) : Nat := ((List.range' a n).map w).sum

/-- Number of attribute cells `packInterleavedGeometry` writes for buffered
element `i`: six per trip of the vertex loop. -/
def attrWeight (elems : Nat → Element) (i : Nat) : Nat :=
  6 * (((elems i).vertexData.length + 1) / 2)

/-- Number of index cells `packInterleavedGeometry` writes for buffered
element `i`. -/
def idxWeight (elems : Nat → Element) (i : Nat) : Nat := (elems i).indices.length

/-- A minimal element over texture `texId`: one vertex at the origin,
nominal blend mode `blend`, index list `ixs`, fully opaque, tint 0. -/
def tinyEl (texId blend : Nat) (ixs : List Nat) : Element :=
  { vertexData := [0, 0], uvs := [0, 0], indices := ixs, worldAlpha := 1,
    tintRGB := 0, blendMode := blend, texId := texId }

/-- A freshly constructed renderer on a device with `MAX_TEXTURES = 1`
(every texture is valid, straight-alpha; identity blend table). -/
def rsOne : RState := { MAX_TEXTURES := 1, size := 100 }

/-- A freshly constructed renderer with `MAX_TEXTURES = 16`. -/
def rsMany : RState := { MAX_TEXTURES := 16, size := 100 }

/-- A renderer whose textures are all not yet valid. -/
def rsInvalid : RState := { texs := fun _ => { valid := false } }

/-- Two buffered elements sharing one texture whose nominal blend modes
differ (`0` then `1`), ready to flush. -/
def c1pre : RState := render (render rsMany (tinyEl 0 0 [0])) (tinyEl 0 1 [0])

/-- First flush of the C2 run: two elements on two distinct textures under
`MAX_TEXTURES = 1`, giving two texture-array groups and two draw calls; the
first group covers 3 indices, so the pooled `drawCalls[1]` is left holding
`start = 3`. -/
def c2firstFlush : RState :=
  flush (render (render rsOne (tinyEl 0 0 [0, 0, 0])) (tinyEl 1 0 [0]))

/-- The renderer at the start of the second submission round: a fresh
element buffer over the draw-call pool carrying the stale
`drawCalls[1].start = 3` left by the first flush (the pool's other entries
are zeroed; in particular `drawCalls[0].start = 0` exactly as that flush
leaves it). -/
def staleDrawCall : DrawCall := { texArrayId := 1, blend := 0, start := 3, size := 1 }

/-- See `staleDrawCall`: fresh renderer except for the stale pooled
draw call left by the first flush. -/
def c2base : RState :=
  { rsOne with drawCalls := Function.update (fun _ => {}) 1 staleDrawCall }

/-- Second submission round: two elements on two further distinct textures,
buffered on top of the stale draw-call pool. -/
def c2mid : RState := render (render c2base (tinyEl 2 0 [0])) (tinyEl 3 0 [0])

/-- State after one non-empty flush of a single element (its session
cursors hold the totals of that flush; `vertexCount` is back to `0`). -/
def c8s : RState := flush (render rsMany (tinyEl 0 0 [0]))

/-- A 3-vertex triangle element with local index space `[0, 1, 2]`. -/
def triEl : Element :=
  { vertexData := [0, 0, 0, 0, 0, 0], uvs := [0, 0, 0, 0, 0, 0],
    indices := [0, 1, 2], worldAlpha := 1, tintRGB := 0, blendMode := 0, texId := 0 }

/-- A fresh renderer with every buffered-element slot holding `triEl`. -/
def wsC4 : RState := { bufferedElements := fun _ => triEl }

/-- A renderer with exactly one buffered 1-vertex / 1-index element and
consistent running totals. -/
def wsC10 : RState :=
  { bufferedElements := fun _ => tinyEl 0 0 [0], bufferedTextures := fun _ => 0,
    bufferSize := 1, vertexCount := 1, indexCount := 1 }

/-- A freshly constructed renderer with `MAX_TEXTURES = 2`. -/
def rsTwo : RState := { MAX_TEXTURES := 2, size := 100 }

/-- First flush of the C3 run: textures `0, 1` fill the first group (4
indices packed), texture `2` opens a second group (1 index), so the pooled
`drawCalls[1]` is left holding `start = 4`. -/
def c3f1 : RState :=
  flush (render (render (render rsTwo (tinyEl 0 0 [0, 0])) (tinyEl 1 0 [0, 0]))
    (tinyEl 2 0 [0]))

/-- The pool residue the first C3 flush leaves — the two written pooled draw
calls and the advanced global tick over an otherwise fresh renderer; the
claim theorem proves these projections of `c3f1`, together with the cleared
group counts and the untouched tick stamps of the textures the next round
uses.  (The remaining `c3f1` fields — scratch buffers, cursors, stamps of
the already-flushed textures `0..2` — are not read by the later flushes.) -/
def c3base1 : RState :=
  { rsTwo with
    drawCalls := fun k =>
      if k = 0 then { texArrayId := 0, blend := 0, start := 0, size := 4 }
      else if k = 1 then { texArrayId := 1, blend := 0, start := 4, size := 1 }
      else {},
    globalBatch := 3 }

/-- Second flush of the C3 run, on top of the first flush's pool residue:
textures `3, 4` fill the first group, texture `5` opens the second, covering
the element range `[2, 3)`.  That group's trailing guard compares the stale
pooled `drawCalls[1].start = 4` against `finish = 3` and fails, so no draw
call is emitted for it and `drawBatches` never binds — and never clears —
texture array `1`. -/
def c3f2 : RState :=
  flush (render (render (render c3base1 (tinyEl 3 0 [0])) (tinyEl 4 0 [0]))
    (tinyEl 5 0 [0]))

/-- The residue the second C3 flush leaves (again proved projection by
projection in the claim theorem): texture array `1` still holds texture `5`
with `count = 1`, plus the pooled draw calls, the tick stamps of textures
`3, 4, 5` and the advanced global tick. -/
def c3base2 : RState :=
  { rsTwo with
    drawCalls := fun k =>
      if k = 0 then { texArrayId := 0, blend := 0, start := 0, size := 2 }
      else if k = 1 then { texArrayId := 1, blend := 0, start := 4, size := 1 }
      else {},
    textureArrays := fun k =>
      if k = 1 then { count := 1, elems := fun j => if j = 0 then 5 else 0 }
      else {},
    texs := fun t =>
      if t = 3 then { batchEnabled := 4 }
      else if t = 4 then { batchEnabled := 4, batchLocation := 1 }
      else if t = 5 then { batchEnabled := 5 }
      else {},
    globalBatch := 6 }

/-- Third flush of the C3 run: textures `6, 7` fill the first group; texture
`5` (stamped two ticks ago, so not skipped) then opens the second group in
pooled array `1`, which still holds the stale texture `5` from the previous
flush. -/
def c3f3 : RState :=
  flush (render (render (render c3base2 (tinyEl 6 0 [0])) (tinyEl 7 0 [0]))
    (tinyEl 5 0 [0]))

/-! ### Theorems -/

/-- C1: the claim is FALSE on this code.  In `buildDrawCalls` the run-split
guard reads `start > i`, which never holds (the loop starts at `i = start`
and only ever lowers `start` to the current `i`), so a closed texture-array
group is never split on blend-mode changes.  Here two buffered elements
share one texture but have two distinct effective blend modes — two maximal
runs — yet the flush produces exactly one draw call (spanning all 12
indices) instead of the two the claim requires. -/
theorem C1_two_blend_runs_one_draw_call :
    runCount (effBlendList c1pre 0 2) = 2 ∧
    (flush c1pre).dcIndex = 1 ∧ (flush c1pre).drawLog.length = 1 ∧
    (flush c1pre).iIndex = 2 := by decide

/-- C2: the claim is FALSE on this code.  The trailing guard of
`buildDrawCalls` reads `drawCall.start < finish`, where `drawCall.start` is
the stale offset left in the pooled `BatchDrawCall` by an earlier flush
(upstream pixi.js compares the loop local `start < finish`).  In the second
flush of this run the pooled `drawCalls[1]` still holds `start = 6` from the
first flush while the group's `finish` is `2`, so the guard fails and the
second submitted element is silently never packed: only 6 of the 12 buffered
indices are emitted and only one draw call is issued, so the concatenated
draw-call ranges do not list the submitted elements in submission order.
Here the first flush packs 3 indices for its first group, leaving
`drawCalls[1].start = 3`; in the second flush the second group covers the
element range `[1, 2)` with `finish = 2 ≤ 3`, so that element is dropped:
2 indices are buffered but only 1 is packed, in 1 draw call. -/
theorem C2_second_flush_drops_an_element :
    (c2firstFlush.drawCalls 1).start = 3 ∧ (c2firstFlush.drawCalls 0).start = 0 ∧
    c2mid.bufferSize = 2 ∧ c2mid.indexCount = 2 ∧
    (flush c2mid).indexData = [0] ∧
    (flush c2mid).dcIndex = 1 := by decide

/-- C3: the claim is FALSE on this code.  `drawBatches` clears only the
texture arrays referenced by the draw calls actually emitted, and the
trailing guard of `buildDrawCalls` reads the stale pooled `drawCall.start`,
so a built group can emit no draw call at all; its pooled array then enters
the next flush still holding its textures.  Concretely, with
`MAX_TEXTURES = 2`: flush 1 (textures `0, 1 | 2`) leaves
`drawCalls[1].start = 4`; in flush 2 (textures `3, 4 | 5`) the second group
covers the element range `[2, 3)`, its trailing guard compares the stale
`4 < 3` and fails, so `dcIndex` stays `1` and texture array `1` survives the
flush holding texture `5` with `count = 1`; flush 3 (textures `6, 7 | 5`)
starts its second group in that dirty array — texture `5`, stamped two ticks
ago, is not skipped by the current-tick check — and appends it again, so
`buildTexturesAndDrawCalls` builds (and `boundArray` binds) a group with
`count = 2` whose entries are both texture `5`.  The claim's pairwise
distinctness fails; the duplicated group is still visible in the pool after
flush 3, whose draw call the same stale guard drops again.  (The
`count ≤ MAX_TEXTURES` and new-group-on-full parts do hold; see
`btdc_group_invariants_clean_pool` for the invariants that a clean pool
would guarantee.) -/
theorem C3_duplicate_texture_in_group :
    (c3f1.drawCalls 0 = { texArrayId := 0, blend := 0, start := 0, size := 4 } ∧
     c3f1.drawCalls 1 = { texArrayId := 1, blend := 0, start := 4, size := 1 } ∧
     (c3f1.textureArrays 0).count = 0 ∧ (c3f1.textureArrays 1).count = 0 ∧
     c3f1.globalBatch = 3 ∧
     (c3f1.texs 3).batchEnabled = 0 ∧ (c3f1.texs 4).batchEnabled = 0 ∧
     (c3f1.texs 5).batchEnabled = 0) ∧
    (c3f2.dcIndex = 1 ∧
     c3f2.drawCalls 0 = { texArrayId := 0, blend := 0, start := 0, size := 2 } ∧
     c3f2.drawCalls 1 = { texArrayId := 1, blend := 0, start := 4, size := 1 } ∧
     (c3f2.textureArrays 0).count = 0 ∧
     (c3f2.textureArrays 1).count = 1 ∧ (c3f2.textureArrays 1).elems 0 = 5 ∧
     c3f2.globalBatch = 6 ∧
     (c3f2.texs 3).batchEnabled = 4 ∧ (c3f2.texs 4).batchEnabled = 4 ∧
     (c3f2.texs 5).batchEnabled = 5) ∧
    ((c3f3.textureArrays 1).count = 2 ∧
     (c3f3.textureArrays 1).elems 0 = 5 ∧ (c3f3.textureArrays 1).elems 1 = 5) := by
  decide

/-- Packing the alpha byte in the straight-alpha branch: the JS expression
`_tintRGB + (alpha * 255 << 24)` stored through the `uint32View` equals
`tint + ⌊alpha * 255⌋ * 2^24` whenever the tint is a 24-bit colour and
`0 ≤ ⌊alpha * 255⌋ ≤ 255`. -/
theorem toUint32_tint_add_shl (tint : Nat) (t : ℤ) (h0 : 0 ≤ t) (h255 : t ≤ 255)
    (htint : tint < 2 ^ 24) :
    (toUint32 ((tint : ℤ) + jsShl t 24)).toNat = tint + t.toNat * 2 ^ 24 := by
  unfold jsShl toInt32 toUint32
  omega

/-- C5: for every packed element the 32-bit colour is the tint modulated by
`alpha = min(opacity, 1)`: when the texture is premultiplied-alpha
(`alphaMode ≠ 0`) and `alpha < 1` the colour is `premultiplyTint` (which
recomputes the RGB channels); in every other case it is the tint itself with
the alpha byte set to `⌊alpha * 255⌋` and the low 24 RGB bits unmodified. -/
theorem C5_packed_color (alphaMode tintRGB : Nat) (worldAlpha : ℚ)
    (h0 : 0 ≤ worldAlpha) (htint : tintRGB < 2 ^ 24) :
    (min worldAlpha 1 < 1 ∧ alphaMode ≠ 0 →
      packedColor alphaMode tintRGB worldAlpha
        = premultiplyTint tintRGB (min worldAlpha 1)) ∧
    (¬ (min worldAlpha 1 < 1 ∧ alphaMode ≠ 0) →
      packedColor alphaMode tintRGB worldAlpha
          = tintRGB + (⌊min worldAlpha 1 * 255⌋).toNat * 2 ^ 24 ∧
        packedColor alphaMode tintRGB worldAlpha % 2 ^ 24 = tintRGB ∧
        packedColor alphaMode tintRGB worldAlpha / 2 ^ 24
          = (⌊min worldAlpha 1 * 255⌋).toNat) := by
  have hαl : (0 : ℚ) ≤ min worldAlpha 1 := le_min h0 zero_le_one
  have hαu : min worldAlpha 1 ≤ 1 := min_le_right _ _
  have hfl : (0 : ℤ) ≤ ⌊min worldAlpha 1 * 255⌋ :=
    Int.le_floor.mpr (by push_cast; exact mul_nonneg hαl (by norm_num))
  have hfu : ⌊min worldAlpha 1 * 255⌋ ≤ 255 := by
    have h1 : min worldAlpha 1 * 255 ≤ 255 := by nlinarith
    have h2 : ⌊min worldAlpha 1 * 255⌋ ≤ ⌊(255 : ℚ)⌋ := Int.floor_le_floor h1
    simpa using h2
  constructor
  · intro h
    simp [packedColor, h]
  · intro h
    have hmain := toUint32_tint_add_shl tintRGB ⌊min worldAlpha 1 * 255⌋ hfl hfu htint
    have hval : packedColor alphaMode tintRGB worldAlpha
        = tintRGB + (⌊min worldAlpha 1 * 255⌋).toNat * 2 ^ 24 := by
      rw [packedColor, if_neg h]
      exact hmain
    refine ⟨hval, ?_, ?_⟩ <;> rw [hval] <;> omega

/-- C6: submitting an element whose texture is not yet valid is a silent
no-op: the renderer state is entirely unchanged (no append, no count change,
no flush). -/
theorem C6_invalid_texture_render_noop (s : RState) (e : Element)
    (h : (s.texs e.texId).valid = false) : render s e = s := by
  simp [render, h]

/-- Witness for C6 at a concrete input. -/
theorem C6_invalid_texture_render_noop_witness :
    (rsInvalid.texs (tinyEl 0 0 [0]).texId).valid = false ∧
    render rsInvalid (tinyEl 0 0 [0]) = rsInvalid :=
  ⟨rfl, C6_invalid_texture_render_noop rsInvalid (tinyEl 0 0 [0]) rfl⟩

/-- C8 (amended): a flush with zero buffered vertices is a complete no-op —
it acquires no buffers, issues no draw call, and leaves the whole state (in
particular all three session cursors) unchanged. -/
theorem C8_empty_flush_state_unchanged (s : RState) (h : s.vertexCount = 0) :
    flush s = s := by
  simp [flush, h]

/-- Witness for C8 at a concrete input. -/
theorem C8_empty_flush_state_unchanged_witness :
    rsMany.vertexCount = 0 ∧ flush rsMany = rsMany :=
  ⟨rfl, C8_empty_flush_state_unchanged rsMany rfl⟩

/-- C8 counterexample: the claim as stated ("leaves all cursors at zero") is
FALSE.  After one non-empty flush the cursors retain that flush's totals
(they are reset at the START of the next non-empty flush, not at the end),
so an empty flush leaves the attribute cursor at 24, not 0. -/
theorem C8_empty_flush_cursors_not_zero :
    c8s.vertexCount = 0 ∧ (flush c8s).aIndex = 6 ∧ (flush c8s).aIndex ≠ 0 := by decide

/-- C9: the growable buffer pool caches by size class.  For either pool:
requesting capacity `C` twice in direct succession returns the same `Buf`
object and the same state the second time; a first-call miss allocates a
block of exactly the size class `nextPow2(ceil(C / granule)) * granule`
(granule 8 vertex records for attributes — `vertexSize` floats each — and 12
indices for indices) and caches it; a first-call hit returns the cached
block with the state untouched. -/
theorem C9_buffer_pool_caching (s : RState) (C : Nat) :
    ((getAttributeBuffer (getAttributeBuffer s C).2 C).1 = (getAttributeBuffer s C).1 ∧
     (getAttributeBuffer (getAttributeBuffer s C).2 C).2 = (getAttributeBuffer s C).2) ∧
    (s.aBuffers (nextPow2 ((C + 7) / 8) * 8) = none →
      (getAttributeBuffer s C).1.cap = nextPow2 ((C + 7) / 8) * 8 * s.vertexSize ∧
      (getAttributeBuffer s C).2.aBuffers (nextPow2 ((C + 7) / 8) * 8)
        = some (getAttributeBuffer s C).1) ∧
    (∀ b0, s.aBuffers (nextPow2 ((C + 7) / 8) * 8) = some b0 →
      (getAttributeBuffer s C).1 = b0 ∧ (getAttributeBuffer s C).2 = s) ∧
    ((getIndexBuffer (getIndexBuffer s C).2 C).1 = (getIndexBuffer s C).1 ∧
     (getIndexBuffer (getIndexBuffer s C).2 C).2 = (getIndexBuffer s C).2) ∧
    (s.iBuffers (log2i (nextPow2 ((C + 11) / 12))) = none →
      (getIndexBuffer s C).1.cap = nextPow2 ((C + 11) / 12) * 12 ∧
      (getIndexBuffer s C).2.iBuffers (log2i (nextPow2 ((C + 11) / 12)))
        = some (getIndexBuffer s C).1) ∧
    (∀ b0, s.iBuffers (log2i (nextPow2 ((C + 11) / 12))) = some b0 →
      (getIndexBuffer s C).1 = b0 ∧ (getIndexBuffer s C).2 = s) := by
  cases ha : s.aBuffers (nextPow2 ((C + 7) / 8) * 8) <;>
    cases hi : s.iBuffers (log2i (nextPow2 ((C + 11) / 12))) <;>
      simp [getAttributeBuffer, getIndexBuffer, ha, hi]

/-- Witness for C9 at a concrete input (fresh pools: both first calls
miss). -/
theorem C9_buffer_pool_caching_witness :
    ((getAttributeBuffer (getAttributeBuffer rsOne 20).2 20).1
       = (getAttributeBuffer rsOne 20).1 ∧
     (getAttributeBuffer (getAttributeBuffer rsOne 20).2 20).2
       = (getAttributeBuffer rsOne 20).2) ∧
    (rsOne.aBuffers (nextPow2 ((20 + 7) / 8) * 8) = none →
      (getAttributeBuffer rsOne 20).1.cap
        = nextPow2 ((20 + 7) / 8) * 8 * rsOne.vertexSize ∧
      (getAttributeBuffer rsOne 20).2.aBuffers (nextPow2 ((20 + 7) / 8) * 8)
        = some (getAttributeBuffer rsOne 20).1) ∧
    (∀ b0, rsOne.aBuffers (nextPow2 ((20 + 7) / 8) * 8) = some b0 →
      (getAttributeBuffer rsOne 20).1 = b0 ∧ (getAttributeBuffer rsOne 20).2 = rsOne) ∧
    ((getIndexBuffer (getIndexBuffer rsOne 20).2 20).1 = (getIndexBuffer rsOne 20).1 ∧
     (getIndexBuffer (getIndexBuffer rsOne 20).2 20).2 = (getIndexBuffer rsOne 20).2) ∧
    (rsOne.iBuffers (log2i (nextPow2 ((20 + 11) / 12))) = none →
      (getIndexBuffer rsOne 20).1.cap = nextPow2 ((20 + 11) / 12) * 12 ∧
      (getIndexBuffer rsOne 20).2.iBuffers (log2i (nextPow2 ((20 + 11) / 12)))
        = some (getIndexBuffer rsOne 20).1) ∧
    (∀ b0, rsOne.iBuffers (log2i (nextPow2 ((20 + 11) / 12))) = some b0 →
      (getIndexBuffer rsOne 20).1 = b0 ∧ (getIndexBuffer rsOne 20).2 = rsOne) :=
  C9_buffer_pool_caching rsOne 20

/-! ### Helper lemmas: sums, packing payloads, frames -/

theorem Wsum_zero (w : Nat → Nat) (a : Nat) : Wsum w a 0 = 0 := rfl

theorem Wsum_succ (w : Nat → Nat) (a n : Nat) :
    Wsum w a (n + 1) = w a + Wsum w (a + 1) n := by
  simp [Wsum, List.range']

theorem Wsum_split (w : Nat → Nat) (m : Nat) :
    ∀ a n, Wsum w a (m + n) = Wsum w a m + Wsum w (a + m) n := by
  induction m with
  | zero => intro a n; simp [Wsum_zero]
  | succ m ih =>
    intro a n
    have h1 : m + 1 + n = (m + n) + 1 := by omega
    rw [h1, Wsum_succ, ih, Wsum_succ]
    have h2 : a + 1 + m = a + (m + 1) := by omega
    rw [h2, Nat.add_assoc]

theorem Wsum_congrOn (w1 w2 : Nat → Nat) :
    ∀ n a, (∀ i, a ≤ i → i < a + n → w1 i = w2 i) → Wsum w1 a n = Wsum w2 a n := by
  intro n
  induction n with
  | zero => intro a _; rfl
  | succ n ih =>
    intro a h
    rw [Wsum_succ, Wsum_succ, h a (Nat.le_refl a) (by omega),
      ih (a + 1) (fun i h1 h2 => h i (by omega) (by omega))]

theorem Wsum_const_mul (c : Nat) (w : Nat → Nat) :
    ∀ n a, Wsum (fun i => c * w i) a n = c * Wsum w a n := by
  intro n
  induction n with
  | zero => intro a; rfl
  | succ n ih => intro a; rw [Wsum_succ, Wsum_succ, ih (a + 1), Nat.mul_add]

theorem packVertexLoop_length (argb loc : Nat) (vd uvs : List ℚ) :
    ∀ p i, (packVertexLoop argb loc vd uvs p i).length = 6 * p := by
  intro p
  induction p with
  | zero => intro i; rfl
  | succ p ih =>
    intro i
    simp only [packVertexLoop, List.length_cons, ih (i + 2)]
    omega

theorem packLoop_eq_cells (texs : TexMap) (elems : Nat → Element) :
    ∀ fuel j pv b,
      packLoop texs elems fuel j pv b
        = ⟨b.aIndex + (packedCells texs elems fuel j pv).1.length,
           b.iIndex + (packedCells texs elems fuel j pv).2.length,
           b.attrData ++ (packedCells texs elems fuel j pv).1,
           b.indexData ++ (packedCells texs elems fuel j pv).2⟩ := by
  intro fuel
  induction fuel with
  | zero => intro j pv b; simp [packLoop, packedCells]
  | succ fuel ih =>
    intro j pv b
    rw [packLoop, ih]
    simp only [packedCells, List.length_append, List.append_assoc, FlushBufs.mk.injEq,
      and_true, true_and]
    constructor <;> omega

theorem packedCells_fst_length (texs : TexMap) (elems : Nat → Element) :
    ∀ fuel j pv, (packedCells texs elems fuel j pv).1.length
      = Wsum (attrWeight elems) j fuel := by
  intro fuel
  induction fuel with
  | zero => intro j pv; rfl
  | succ fuel ih =>
    intro j pv
    simp only [packedCells, List.length_append, packVertexLoop_length, ih, Wsum_succ,
      attrWeight]

theorem packedCells_snd_length (texs : TexMap) (elems : Nat → Element) :
    ∀ fuel j pv, (packedCells texs elems fuel j pv).2.length
      = Wsum (idxWeight elems) j fuel := by
  intro fuel
  induction fuel with
  | zero => intro j pv; rfl
  | succ fuel ih =>
    intro j pv
    simp only [packedCells, List.length_append, List.length_map, ih, Wsum_succ, idxWeight]

/-- The run-split branch of `buildDrawCalls` is dead code: its guard reads
`start > i`, but the loop starts at `i = start` and only ever lowers `start`
to the current `i`, so the guard never holds.  The loop therefore only
rewrites draw-call `blend` fields: the state is unchanged except for the
`drawCalls` pool, and `start` / `dcIndex` come back untouched. -/
theorem buildDCLoop_dead (texA : Nat) :
    ∀ fuel i ls dci (s : RState), ls ≤ i →
      ∃ dcs, buildDCLoop texA fuel i ls dci s = ({ s with drawCalls := dcs }, ls, dci) := by
  intro fuel
  induction fuel with
  | zero => intro i ls dci s _; exact ⟨s.drawCalls, rfl⟩
  | succ fuel ih =>
    intro i ls dci s hls
    have hcond : ¬ (ls > i ∧ (s.drawCalls dci).blend ≠ effBlend s i) := by
      rintro ⟨h1, -⟩; omega
    obtain ⟨dcs, hd⟩ := ih (i + 1) ls dci
      (setDC s dci { s.drawCalls dci with blend := effBlend s i }) (by omega)
    refine ⟨dcs, ?_⟩
    simp only [buildDCLoop]
    rw [if_neg hcond, hd]
    rfl

/-- What `buildDrawCalls` does to the state: it only rewrites the
`drawCalls` pool and `dcIndex`, and either packs nothing or packs exactly
the element range `[start, finish)` at the current cursors (depending on the
stale `drawCall.start < finish` guard). -/
theorem buildDrawCalls_spec (s : RState) (texA start finish : Nat) :
    ∃ dcs d,
      buildDrawCalls s texA start finish = { s with drawCalls := dcs, dcIndex := d } ∨
      buildDrawCalls s texA start finish
        = { s with
              drawCalls := dcs, dcIndex := d,
              aIndex := (packBufs s start finish).aIndex,
              iIndex := (packBufs s start finish).iIndex,
              attrData := (packBufs s start finish).attrData,
              indexData := (packBufs s start finish).indexData } := by
  obtain ⟨dcs1, hd⟩ := buildDCLoop_dead texA (finish - start) start start s.dcIndex
    (setDC s s.dcIndex { s.drawCalls s.dcIndex with texArrayId := texA, blend := -1 })
    (Nat.le_refl start)
  by_cases hc : (dcs1 s.dcIndex).start < finish
  · exact ⟨_, _, Or.inr (by simp only [buildDrawCalls, hd]; rw [if_pos hc]; rfl)⟩
  · refine ⟨dcs1, s.dcIndex, Or.inl ?_⟩
    simp only [buildDrawCalls, hd]
    rw [if_neg hc]
    rfl

/-- `boundArrayLoop` only rewrites `_batchLocation` fields: the state is
unchanged except for `texs`, and every texture's `_batchEnabled` stamp is
preserved. -/
theorem boundArrayLoop_spec (te : Nat → Nat) :
    ∀ fuel j (s : RState),
      ∃ txs, boundArrayLoop te fuel j s = { s with texs := txs } ∧
        ∀ t, (txs t).batchEnabled = (s.texs t).batchEnabled := by
  intro fuel
  induction fuel with
  | zero => intro j s; exact ⟨s.texs, rfl, fun t => rfl⟩
  | succ fuel ih =>
    intro j s
    obtain ⟨txs, h1, h2⟩ := ih (j + 1) (setTex s (te j) { s.texs (te j) with batchLocation := j })
    refine ⟨txs, ?_, ?_⟩
    · simp only [boundArrayLoop]
      rw [h1]
      rfl
    · intro t
      rw [h2 t]
      by_cases ht : t = te j
      · subst ht; simp [setTex]
      · simp [setTex, Function.update_noteq ht]

/-- `boundArray` only rewrites `_batchLocation` fields. -/
theorem boundArray_spec (s : RState) (ta : Nat) :
    ∃ txs, boundArray s ta = { s with texs := txs } ∧
      ∀ t, (txs t).batchEnabled = (s.texs t).batchEnabled :=
  boundArrayLoop_spec (s.textureArrays ta).elems (s.textureArrays ta).count 0 s

/-- `drawBatchesLoop` only clears texture arrays and appends to the draw
log. -/
theorem drawBatchesLoop_spec :
    ∀ fuel i cur (s : RState),
      ∃ tas dl, drawBatchesLoop fuel i cur s = { s with textureArrays := tas, drawLog := dl } := by
  intro fuel
  induction fuel with
  | zero => intro i cur s; exact ⟨s.textureArrays, s.drawLog, rfl⟩
  | succ fuel ih =>
    intro i cur s
    by_cases hc : cur ≠ some (s.drawCalls i).texArrayId
    · obtain ⟨tas, dl, h⟩ := ih (i + 1) (some (s.drawCalls i).texArrayId)
        { bindAndClearTexArray s (s.drawCalls i).texArrayId with
            drawLog := (bindAndClearTexArray s (s.drawCalls i).texArrayId).drawLog
              ++ [s.drawCalls i] }
      refine ⟨tas, dl, ?_⟩
      simp only [drawBatchesLoop]
      rw [if_pos hc]
      exact h
    · obtain ⟨tas, dl, h⟩ := ih (i + 1) cur { s with drawLog := s.drawLog ++ [s.drawCalls i] }
      refine ⟨tas, dl, ?_⟩
      simp only [drawBatchesLoop]
      rw [if_neg hc]
      exact h

/-- `drawBatches` only clears texture arrays and appends to the draw log. -/
theorem drawBatches_spec (s : RState) :
    ∃ tas dl, drawBatches s = { s with textureArrays := tas, drawLog := dl } :=
  drawBatchesLoop_spec s.dcIndex 0 none s

theorem pow2Ge_ge : ∀ f n, n ≤ f + 1 → n ≤ pow2Ge f n := by
  intro f
  induction f with
  | zero => intro n h; simpa [pow2Ge] using h
  | succ f ih =>
    intro n h
    by_cases h1 : n ≤ 1
    · simp only [pow2Ge, if_pos h1]
      exact h1
    · have h2 := ih ((n + 1) / 2) (by omega)
      simp only [pow2Ge, if_neg h1]
      omega

theorem nextPow2_ge (n : Nat) : n ≤ nextPow2 n := pow2Ge_ge n n (by omega)

theorem pow2Ge_pow : ∀ f n, ∃ j, pow2Ge f n = 2 ^ j := by
  intro f
  induction f with
  | zero => intro n; exact ⟨0, rfl⟩
  | succ f ih =>
    intro n
    by_cases h1 : n ≤ 1
    · exact ⟨0, by simp [pow2Ge, h1]⟩
    · obtain ⟨j, hj⟩ := ih ((n + 1) / 2)
      refine ⟨j + 1, ?_⟩
      simp only [pow2Ge, if_neg h1, hj, Nat.pow_succ]
      omega

theorem log2Fuel_pow : ∀ f j, 2 ^ j ≤ f + 1 → log2Fuel f (2 ^ j) = j := by
  intro f
  induction f with
  | zero =>
    intro j h
    have hj : j = 0 := by
      by_contra hne
      have h2 : 2 ^ 1 ≤ 2 ^ j := Nat.pow_le_pow_right (by omega) (by omega)
      simp only [pow_one] at h2
      omega
    subst hj; rfl
  | succ f ih =>
    intro j h
    cases j with
    | zero => simp [log2Fuel]
    | succ k =>
      have hge : 2 ^ 1 ≤ 2 ^ (k + 1) := Nat.pow_le_pow_right (by omega) (by omega)
      simp only [pow_one] at hge
      have h2 : ¬ (2 ^ (k + 1) ≤ 1) := by omega
      have hdiv : 2 ^ (k + 1) / 2 = 2 ^ k := by
        rw [Nat.pow_succ, Nat.mul_div_cancel _ (by omega : 0 < 2)]
      have hps : 2 ^ (k + 1) = 2 ^ k * 2 := Nat.pow_succ 2 k
      have hk : 2 ^ k ≤ f + 1 := by omega
      simp only [log2Fuel, if_neg h2, hdiv, ih k hk]

theorem log2i_two_pow (j : Nat) : log2i (2 ^ j) = j :=
  log2Fuel_pow (2 ^ j) j (by omega)

theorem two_pow_log2i_nextPow2 (m : Nat) : 2 ^ log2i (nextPow2 m) = nextPow2 m := by
  obtain ⟨j, hj⟩ := pow2Ge_pow m m
  rw [nextPow2, hj, log2i_two_pow]

/-- On a well-formed pool, `getAttributeBuffer` returns a buffer of exactly
the requested size class (whether hit or miss) and only touches the pool
fields of the state. -/
theorem getAttributeBuffer_spec (s : RState) (n : Nat)
    (hwf : ∀ k b, s.aBuffers k = some b → b.cap = k * s.vertexSize) :
    (getAttributeBuffer s n).1.cap = nextPow2 ((n + 7) / 8) * 8 * s.vertexSize ∧
    ∃ ab ni, (getAttributeBuffer s n).2 = { s with aBuffers := ab, nextBufId := ni } := by
  cases h : s.aBuffers (nextPow2 ((n + 7) / 8) * 8) with
  | none =>
    refine ⟨?_, ?_⟩
    · simp [getAttributeBuffer, h]
    · exact ⟨_, _, by simp only [getAttributeBuffer, h]; rfl⟩
  | some b =>
    refine ⟨?_, s.aBuffers, s.nextBufId, ?_⟩
    · simpa [getAttributeBuffer, h] using hwf _ b h
    · simp [getAttributeBuffer, h]

/-- On a well-formed pool, `getIndexBuffer` returns a buffer of exactly the
requested size class and only touches the pool fields of the state. -/
theorem getIndexBuffer_spec (s : RState) (n : Nat)
    (hwf : ∀ k b, s.iBuffers k = some b → b.cap = 2 ^ k * 12) :
    (getIndexBuffer s n).1.cap = nextPow2 ((n + 11) / 12) * 12 ∧
    ∃ ib ni, (getIndexBuffer s n).2 = { s with iBuffers := ib, nextBufId := ni } := by
  cases h : s.iBuffers (log2i (nextPow2 ((n + 11) / 12))) with
  | none =>
    refine ⟨?_, ?_⟩
    · simp [getIndexBuffer, h]
    · exact ⟨_, _, by simp only [getIndexBuffer, h]; rfl⟩
  | some b =>
    refine ⟨?_, s.iBuffers, s.nextBufId, ?_⟩
    · have h2 := hwf _ b h
      rw [two_pow_log2i_nextPow2] at h2
      simpa [getIndexBuffer, h] using h2
    · simp [getIndexBuffer, h]

/-- `buildDrawCalls` leaves the texture state, the texture-array pool and
the configuration/buffer fields untouched. -/
theorem buildDrawCalls_frame (s : RState) (texA a b : Nat) :
    (buildDrawCalls s texA a b).texs = s.texs ∧
    (buildDrawCalls s texA a b).textureArrays = s.textureArrays ∧
    (buildDrawCalls s texA a b).MAX_TEXTURES = s.MAX_TEXTURES ∧
    (buildDrawCalls s texA a b).bufferedTextures = s.bufferedTextures ∧
    (buildDrawCalls s texA a b).bufferedElements = s.bufferedElements ∧
    (buildDrawCalls s texA a b).touchCount = s.touchCount ∧
    (buildDrawCalls s texA a b).bufferSize = s.bufferSize := by
  obtain ⟨dcs, d, h | h⟩ := buildDrawCalls_spec s texA a b <;> rw [h] <;>
    exact ⟨rfl, rfl, rfl, rfl, rfl, rfl, rfl⟩

/-- Stamping a not-yet-stamped texture and appending it to the active group
preserves the texture-walk invariants: the group grows by one but stays
within `M`, earlier groups stay full, later groups stay empty, entries stay
pairwise distinct (the appended texture cannot already be a member, since
members are stamped with the current tick and it is not), members stay
stamped with the current tick, and all stamps stay bounded by it. -/
theorem stampAndAppend_inv (M : Nat) (s : RState) (texId tick cta : Nat)
    (hstamp : (s.texs texId).batchEnabled ≠ tick)
    (h2 : (s.textureArrays cta).count < M)
    (h3 : ∀ k, k < cta → (s.textureArrays k).count = M)
    (h4 : ∀ k, cta < k → (s.textureArrays k).count = 0)
    (h5 : ∀ k, k ≤ cta → ∀ a b, a < b → b < (s.textureArrays k).count →
      (s.textureArrays k).elems a ≠ (s.textureArrays k).elems b)
    (h6 : ∀ a, a < (s.textureArrays cta).count →
      (s.texs ((s.textureArrays cta).elems a)).batchEnabled = tick)
    (h7 : ∀ t, (s.texs t).batchEnabled ≤ tick) :
    (stampAndAppend s texId tick cta).MAX_TEXTURES = s.MAX_TEXTURES ∧
    ((stampAndAppend s texId tick cta).textureArrays cta).count ≤ M ∧
    (∀ k, k < cta → ((stampAndAppend s texId tick cta).textureArrays k).count = M) ∧
    (∀ k, cta < k → ((stampAndAppend s texId tick cta).textureArrays k).count = 0) ∧
    (∀ k, k ≤ cta → ∀ a b, a < b →
      b < ((stampAndAppend s texId tick cta).textureArrays k).count →
      ((stampAndAppend s texId tick cta).textureArrays k).elems a
        ≠ ((stampAndAppend s texId tick cta).textureArrays k).elems b) ∧
    (∀ a, a < ((stampAndAppend s texId tick cta).textureArrays cta).count →
      ((stampAndAppend s texId tick cta).texs
          (((stampAndAppend s texId tick cta).textureArrays cta).elems a)).batchEnabled
        = tick) ∧
    (∀ t, ((stampAndAppend s texId tick cta).texs t).batchEnabled ≤ tick) := by
  have hArr : ∀ k, k ≠ cta →
      (stampAndAppend s texId tick cta).textureArrays k = s.textureArrays k := by
    intro k hk
    simp [stampAndAppend, setTA, setTex, Function.update_noteq hk]
  have hCnt : ((stampAndAppend s texId tick cta).textureArrays cta).count
      = (s.textureArrays cta).count + 1 := by
    simp [stampAndAppend, setTA, setTex]
  have hElems : ((stampAndAppend s texId tick cta).textureArrays cta).elems
      = Function.update (s.textureArrays cta).elems (s.textureArrays cta).count texId := by
    simp [stampAndAppend, setTA, setTex]
  have hTex : ∀ t, t ≠ texId → (stampAndAppend s texId tick cta).texs t = s.texs t := by
    intro t ht
    simp [stampAndAppend, setTA, setTex, Function.update_noteq ht]
  have hTexI : ((stampAndAppend s texId tick cta).texs texId).batchEnabled = tick := by
    simp [stampAndAppend, setTA, setTex]
  have hMemNe : ∀ a, a < (s.textureArrays cta).count →
      (s.textureArrays cta).elems a ≠ texId := by
    intro a ha hcontra
    exact hstamp (hcontra ▸ h6 a ha)
  refine ⟨rfl, ?_, ?_, ?_, ?_, ?_, ?_⟩
  · rw [hCnt]; omega
  · intro k hk; rw [hArr k (by omega)]; exact h3 k hk
  · intro k hk; rw [hArr k (by omega)]; exact h4 k hk
  · intro k hk a b hab hb
    by_cases hkc : k = cta
    · rw [hkc] at hb ⊢
      rw [hCnt] at hb
      rw [hElems]
      rcases Nat.lt_or_ge b (s.textureArrays cta).count with hlt | hge
      · rw [Function.update_noteq (by omega : a ≠ (s.textureArrays cta).count),
          Function.update_noteq (by omega : b ≠ (s.textureArrays cta).count)]
        exact h5 cta (Nat.le_refl cta) a b hab hlt
      · have hbeq : b = (s.textureArrays cta).count := by omega
        subst hbeq
        rw [Function.update_noteq (by omega : a ≠ (s.textureArrays cta).count),
          Function.update_same]
        exact hMemNe a (by omega)
    · rw [hArr k hkc] at hb ⊢
      exact h5 k hk a b hab hb
  · intro a ha
    rw [hCnt] at ha
    rw [hElems]
    rcases Nat.lt_or_ge a (s.textureArrays cta).count with hlt | hge
    · rw [Function.update_noteq (by omega : a ≠ (s.textureArrays cta).count)]
      rw [hTex _ (hMemNe a hlt)]
      exact h6 a hlt
    · have haeq : a = (s.textureArrays cta).count := by omega
      subst haeq
      rw [Function.update_same]
      exact hTexI
  · intro t
    by_cases htt : t = texId
    · subst htt; rw [hTexI]
    · rw [hTex t htt]; exact h7 t

/-- Loop invariant of the texture walk (`btLoop`): `MAX_TEXTURES` is
preserved; the tick advances exactly once per newly started group; every
closed group is exactly full; the current group is within bound and later
pool entries are untouched; every visited group's entries are pairwise
distinct; the current group's members are stamped with the current tick;
and every stamp is at most the current tick. -/
theorem btLoop_inv (M : Nat) (hM : 1 ≤ M) :
    ∀ fuel i tick cta start (s : RState) s1 tick1 cta1 start1,
      btLoop fuel i tick cta start s = (s1, tick1, cta1, start1) →
      s.MAX_TEXTURES = M →
      (s.textureArrays cta).count ≤ M →
      (∀ k, k < cta → (s.textureArrays k).count = M) →
      (∀ k, cta < k → (s.textureArrays k).count = 0) →
      (∀ k, k ≤ cta → ∀ a b, a < b → b < (s.textureArrays k).count →
        (s.textureArrays k).elems a ≠ (s.textureArrays k).elems b) →
      (∀ a, a < (s.textureArrays cta).count →
        (s.texs ((s.textureArrays cta).elems a)).batchEnabled = tick) →
      (∀ t, (s.texs t).batchEnabled ≤ tick) →
      s1.MAX_TEXTURES = M ∧
      cta ≤ cta1 ∧ tick1 = tick + (cta1 - cta) ∧
      (s1.textureArrays cta1).count ≤ M ∧
      (∀ k, k < cta1 → (s1.textureArrays k).count = M) ∧
      (∀ k, cta1 < k → (s1.textureArrays k).count = 0) ∧
      (∀ k, k ≤ cta1 → ∀ a b, a < b → b < (s1.textureArrays k).count →
        (s1.textureArrays k).elems a ≠ (s1.textureArrays k).elems b) ∧
      (∀ a, a < (s1.textureArrays cta1).count →
        (s1.texs ((s1.textureArrays cta1).elems a)).batchEnabled = tick1) ∧
      (∀ t, (s1.texs t).batchEnabled ≤ tick1) := by
  intro fuel
  induction fuel with
  | zero =>
    intro i tick cta start s s1 tick1 cta1 start1 heq h1 h2 h3 h4 h5 h6 h7
    simp only [btLoop, Prod.mk.injEq] at heq
    obtain ⟨hs, ht, hc, -⟩ := heq
    subst hs; subst ht; subst hc
    exact ⟨h1, Nat.le_refl _, by omega, h2, h3, h4, h5, h6, h7⟩
  | succ fuel ih =>
    intro i tick cta start s s1 tick1 cta1 start1 heq h1 h2 h3 h4 h5 h6 h7
    simp only [btLoop] at heq
    by_cases hskip : (s.texs (s.bufferedTextures i)).batchEnabled = tick
    · rw [if_pos hskip] at heq
      exact ih (i + 1) tick cta start s s1 tick1 cta1 start1 heq h1 h2 h3 h4 h5 h6 h7
    · rw [if_neg hskip] at heq
      by_cases hfull : (s.textureArrays cta).count ≥ s.MAX_TEXTURES
      · rw [if_pos hfull] at heq
        -- facts about the state after closing the group
        obtain ⟨txs, hbnd, hbe⟩ := boundArray_spec s cta
        rw [hbnd] at heq
        obtain ⟨hfx, hfa, hfm, -, -, -, -⟩ :=
          buildDrawCalls_frame { s with texs := txs } cta start i
        have hBtex : ∀ t,
            ((buildDrawCalls { s with texs := txs } cta start i).texs t).batchEnabled
              = (s.texs t).batchEnabled := by
          intro t; rw [hfx]; exact hbe t
        have hBarr : (buildDrawCalls { s with texs := txs } cta start i).textureArrays
            = s.textureArrays := hfa
        have hBmax : (buildDrawCalls { s with texs := txs } cta start i).MAX_TEXTURES
            = M := hfm.trans h1
        obtain ⟨q1, q2, q3, q4, q5, q6, q7⟩ :=
          stampAndAppend_inv M (buildDrawCalls { s with texs := txs } cta start i)
            (s.bufferedTextures i) (tick + 1) (cta + 1)
            (by rw [hBtex]; have hb7 := h7 (s.bufferedTextures i); omega)
            (by rw [hBarr, h4 (cta + 1) (by omega)]; omega)
            (by intro k hk
                rw [hBarr]
                rcases Nat.lt_or_ge k cta with hkc | hkc
                · exact h3 k hkc
                · have hkeq : k = cta := by omega
                  subst hkeq
                  rw [h1] at hfull
                  omega)
            (by intro k hk; rw [hBarr]; exact h4 k (by omega))
            (by intro k hk a b hab hb
                rw [hBarr] at hb ⊢
                rcases Nat.lt_or_ge k (cta + 1) with hkc | hkc
                · exact h5 k (by omega) a b hab hb
                · have hkeq : k = cta + 1 := by omega
                  subst hkeq
                  rw [h4 (cta + 1) (by omega)] at hb
                  omega)
            (by intro a ha
                rw [hBarr, h4 (cta + 1) (by omega)] at ha
                omega)
            (by intro t; rw [hBtex]; exact Nat.le_succ_of_le (h7 t))
        obtain ⟨k1, k2, k3, k4, k5, k6, k7, k8, k9⟩ :=
          ih (i + 1) (tick + 1) (cta + 1) i _ s1 tick1 cta1 start1 heq
            (q1.trans hBmax) q2 q3 q4 q5 q6 q7
        exact ⟨k1, by omega, by omega, k4, k5, k6, k7, k8, k9⟩
      · rw [if_neg hfull] at heq
        obtain ⟨q1, q2, q3, q4, q5, q6, q7⟩ :=
          stampAndAppend_inv M s (s.bufferedTextures i) tick cta
            hskip (by rw [h1] at hfull; omega) h3 h4 h5 h6 h7
        exact ih (i + 1) tick cta start _ s1 tick1 cta1 start1 heq
          (q1.trans h1) q2 q3 q4 q5 q6 q7

/-- The texture-group invariants under a CLEAN pool: if every pooled texture
array starts with count 0 and every texture's tick stamp is no newer than
the global batch counter, every texture array built by
`buildTexturesAndDrawCalls` holds at most `MAX_TEXTURES` textures and its
entries are pairwise distinct.  Writing `G` for the number of groups built,
recovered as the total advance of the global tick minus one: the built
groups are exactly the non-empty pool entries `0 .. G-1`, and every group
before the last is exactly full — a new group is started, with the tick
advanced, exactly when the active group is full.  NOTE: the clean-pool
hypothesis is NOT maintained by this code — the stale trailing guard of
`buildDrawCalls` can drop a group's draw call, leaving its pooled array
uncleared by `drawBatches` (the C3 counterexample run reaches a built group
with duplicate entries this way) — so this lemma only delimits the failure:
distinctness breaks exactly through dirty pool entries. -/
theorem btdc_group_invariants_clean_pool (s : RState) (hM : 1 ≤ s.MAX_TEXTURES)
    (hta : ∀ k, (s.textureArrays k).count = 0)
    (hle : ∀ t, (s.texs t).batchEnabled ≤ s.globalBatch) :
    (∀ k, ((buildTexturesAndDrawCalls s).textureArrays k).count ≤ s.MAX_TEXTURES) ∧
    (∀ k a b, a < b → b < ((buildTexturesAndDrawCalls s).textureArrays k).count →
      ((buildTexturesAndDrawCalls s).textureArrays k).elems a
        ≠ ((buildTexturesAndDrawCalls s).textureArrays k).elems b) ∧
    s.globalBatch + 1 ≤ (buildTexturesAndDrawCalls s).globalBatch ∧
    (∀ k, k < (buildTexturesAndDrawCalls s).globalBatch - s.globalBatch - 1 ↔
      0 < ((buildTexturesAndDrawCalls s).textureArrays k).count) ∧
    (∀ k, k + 1 < (buildTexturesAndDrawCalls s).globalBatch - s.globalBatch - 1 →
      ((buildTexturesAndDrawCalls s).textureArrays k).count = s.MAX_TEXTURES) := by
  obtain ⟨⟨s1, tick1, cta1, start1⟩, hbt⟩ :
      ∃ r, btLoop s.bufferSize 0 (s.globalBatch + 1) 0 0 s = r := ⟨_, rfl⟩
  obtain ⟨k1, k2, k3, k4, k5, k6, k7, k8, k9⟩ :=
    btLoop_inv s.MAX_TEXTURES hM s.bufferSize 0 (s.globalBatch + 1) 0 0 s
      s1 tick1 cta1 start1 hbt rfl (by rw [hta 0]; omega)
      (fun k hk => absurd hk (Nat.not_lt_zero k))
      (fun k _ => hta k)
      (fun k _ a b hab hb => absurd hb (by rw [hta k]; omega))
      (fun a ha => absurd ha (by rw [hta 0]; omega))
      (fun t => Nat.le_succ_of_le (hle t))
  have hres : buildTexturesAndDrawCalls s
      = if (s1.textureArrays cta1).count > 0 then
          { buildDrawCalls (boundArray s1 cta1) cta1 start1 s1.bufferSize with
              globalBatch := tick1 + 1 }
        else { s1 with globalBatch := tick1 } := by
    simp only [buildTexturesAndDrawCalls, hbt]
  by_cases hlast : (s1.textureArrays cta1).count > 0
  · rw [if_pos hlast] at hres
    obtain ⟨txs, hbnd, hbe⟩ := boundArray_spec s1 cta1
    rw [hbnd] at hres
    obtain ⟨hfx, hfa, hfm, -, -, -, -⟩ :=
      buildDrawCalls_frame { s1 with texs := txs } cta1 start1 s1.bufferSize
    have harr : (buildTexturesAndDrawCalls s).textureArrays = s1.textureArrays := by
      rw [hres]; exact hfa
    have hgb : (buildTexturesAndDrawCalls s).globalBatch = tick1 + 1 := by
      rw [hres]
    have hG : (buildTexturesAndDrawCalls s).globalBatch - s.globalBatch - 1
        = cta1 + 1 := by
      rw [hgb]; omega
    rw [hG, harr, hgb]
    refine ⟨?_, ?_, by omega, ?_, ?_⟩
    · intro k
      rcases Nat.lt_trichotomy k cta1 with hk | hk | hk
      · rw [k5 k hk]
      · rw [hk]; exact k4
      · rw [k6 k hk]; omega
    · intro k a b hab hb
      rcases Nat.lt_or_ge cta1 k with hk | hk
      · rw [k6 k hk] at hb; omega
      · exact k7 k hk a b hab hb
    · intro k
      constructor
      · intro hk
        rcases Nat.lt_or_ge k cta1 with hkc | hkc
        · rw [k5 k hkc]; omega
        · have hke : k = cta1 := by omega
          rw [hke]; exact hlast
      · intro hk
        by_contra hge
        rw [k6 k (by omega)] at hk
        omega
    · intro k hk
      exact k5 k (by omega)
  · rw [if_neg hlast] at hres
    have harr : (buildTexturesAndDrawCalls s).textureArrays = s1.textureArrays := by
      rw [hres]
    have hgb : (buildTexturesAndDrawCalls s).globalBatch = tick1 := by
      rw [hres]
    have hG : (buildTexturesAndDrawCalls s).globalBatch - s.globalBatch - 1 = cta1 := by
      rw [hgb]; omega
    rw [hG, harr, hgb]
    refine ⟨?_, ?_, by omega, ?_, ?_⟩
    · intro k
      rcases Nat.lt_trichotomy k cta1 with hk | hk | hk
      · rw [k5 k hk]
      · rw [hk]; exact k4
      · rw [k6 k hk]; omega
    · intro k a b hab hb
      rcases Nat.lt_or_ge cta1 k with hk | hk
      · rw [k6 k hk] at hb; omega
      · exact k7 k hk a b hab hb
    · intro k
      constructor
      · intro hk
        rw [k5 k hk]; omega
      · intro hk
        by_contra hge
        rcases Nat.lt_trichotomy k cta1 with hkc | hkc | hkc
        · omega
        · rw [hkc] at hk; omega
        · rw [k6 k hkc] at hk; omega
    · intro k hk
      exact k5 k (by omega)

/-- The clean-pool invariant lemma instantiated at a fresh renderer. -/
theorem btdc_group_invariants_clean_pool_example :
    (1 ≤ rsOne.MAX_TEXTURES ∧ (∀ k, (rsOne.textureArrays k).count = 0) ∧
      (∀ t, (rsOne.texs t).batchEnabled ≤ rsOne.globalBatch)) ∧
    ((∀ k, ((buildTexturesAndDrawCalls rsOne).textureArrays k).count
        ≤ rsOne.MAX_TEXTURES) ∧
     (∀ k a b, a < b →
        b < ((buildTexturesAndDrawCalls rsOne).textureArrays k).count →
        ((buildTexturesAndDrawCalls rsOne).textureArrays k).elems a
          ≠ ((buildTexturesAndDrawCalls rsOne).textureArrays k).elems b) ∧
     rsOne.globalBatch + 1 ≤ (buildTexturesAndDrawCalls rsOne).globalBatch ∧
     (∀ k, k < (buildTexturesAndDrawCalls rsOne).globalBatch - rsOne.globalBatch - 1 ↔
        0 < ((buildTexturesAndDrawCalls rsOne).textureArrays k).count) ∧
     (∀ k, k + 1 < (buildTexturesAndDrawCalls rsOne).globalBatch - rsOne.globalBatch - 1 →
        ((buildTexturesAndDrawCalls rsOne).textureArrays k).count
          = rsOne.MAX_TEXTURES)) :=
  ⟨⟨Nat.le_refl 1, fun _ => rfl, fun _ => Nat.le_refl 0⟩,
    btdc_group_invariants_clean_pool rsOne (Nat.le_refl 1) (fun _ => rfl)
      (fun _ => Nat.le_refl 0)⟩

/-- C4: `packInterleavedGeometry` remaps every original index by the running
vertex count (the attribute cursor over `vertexSize` at entry, accumulated
per element): packing two consecutive buffered elements appends, to the
index scratch buffer, the first element's indices offset by
`base = aIndex / 6` followed by the second element's indices offset by
`base + vertexCount(element1)`; with valid local indices the two emitted
blocks never alias (every value of the first block is strictly below every
value of the second). -/
theorem C4_index_remap (s : RState) (j : Nat) (hvs : s.vertexSize = 6)
    (hbound : s.aIndex / 6 + (s.bufferedElements j).vertexData.length / 2
        + (s.bufferedElements (j + 1)).vertexData.length / 2 ≤ 2 ^ 16)
    (hw1 : ∀ ix ∈ (s.bufferedElements j).indices,
      ix < (s.bufferedElements j).vertexData.length / 2)
    (hw2 : ∀ ix ∈ (s.bufferedElements (j + 1)).indices,
      ix < (s.bufferedElements (j + 1)).vertexData.length / 2) :
    (packInterleavedGeometry s j (j + 2)).indexData
      = s.indexData
        ++ (s.bufferedElements j).indices.map (fun ix => s.aIndex / 6 + ix)
        ++ (s.bufferedElements (j + 1)).indices.map
            (fun ix => s.aIndex / 6 + (s.bufferedElements j).vertexData.length / 2 + ix) ∧
    (∀ a ∈ (s.bufferedElements j).indices.map (fun ix => s.aIndex / 6 + ix),
      ∀ b ∈ (s.bufferedElements (j + 1)).indices.map
          (fun ix => s.aIndex / 6 + (s.bufferedElements j).vertexData.length / 2 + ix),
      a < b) := by
  have hcells : (packedCells s.texs s.bufferedElements 2 j (s.aIndex / 6)).2
      = (s.bufferedElements j).indices.map (fun ix => (s.aIndex / 6 + ix) % 2 ^ 16)
        ++ ((s.bufferedElements (j + 1)).indices.map
            (fun ix => (s.aIndex / 6 + (s.bufferedElements j).vertexData.length / 2 + ix)
              % 2 ^ 16) ++ []) := rfl
  have hmain : (packInterleavedGeometry s j (j + 2)).indexData
      = s.indexData ++ (packedCells s.texs s.bufferedElements 2 j (s.aIndex / 6)).2 := by
    show (packBufs s j (j + 2)).indexData = _
    rw [packBufs, packLoop_eq_cells, hvs]
    have hfu : j + 2 - j = 2 := by omega
    rw [hfu]
  have hmod1 : (s.bufferedElements j).indices.map
        (fun ix => (s.aIndex / 6 + ix) % 2 ^ 16)
      = (s.bufferedElements j).indices.map (fun ix => s.aIndex / 6 + ix) := by
    refine List.map_congr_left ?_
    intro ix hix
    have hv := hw1 ix hix
    exact Nat.mod_eq_of_lt (by omega)
  have hmod2 : (s.bufferedElements (j + 1)).indices.map
        (fun ix => (s.aIndex / 6 + (s.bufferedElements j).vertexData.length / 2 + ix)
          % 2 ^ 16)
      = (s.bufferedElements (j + 1)).indices.map
          (fun ix => s.aIndex / 6 + (s.bufferedElements j).vertexData.length / 2 + ix) := by
    refine List.map_congr_left ?_
    intro ix hix
    have hv := hw2 ix hix
    exact Nat.mod_eq_of_lt (by omega)
  constructor
  · rw [hmain, hcells, hmod1, hmod2, List.append_nil, List.append_assoc]
  · intro a ha b hb
    obtain ⟨ix, hix, rfl⟩ := List.mem_map.mp ha
    obtain ⟨iy, hiy, rfl⟩ := List.mem_map.mp hb
    have hv := hw1 ix hix
    omega

/-- Witness for C4 at a concrete input: two identical 3-vertex triangles
with local index space `[0, 1, 2]` pack to global offsets `0..2` and
`3..5`. -/
theorem C4_index_remap_witness :
    (wsC4.vertexSize = 6 ∧
     wsC4.aIndex / 6 + (wsC4.bufferedElements 0).vertexData.length / 2
        + (wsC4.bufferedElements 1).vertexData.length / 2 ≤ 2 ^ 16 ∧
     (∀ ix ∈ (wsC4.bufferedElements 0).indices,
        ix < (wsC4.bufferedElements 0).vertexData.length / 2) ∧
     (∀ ix ∈ (wsC4.bufferedElements 1).indices,
        ix < (wsC4.bufferedElements 1).vertexData.length / 2)) ∧
    ((packInterleavedGeometry wsC4 0 (0 + 2)).indexData
      = wsC4.indexData
        ++ (wsC4.bufferedElements 0).indices.map (fun ix => wsC4.aIndex / 6 + ix)
        ++ (wsC4.bufferedElements 1).indices.map
            (fun ix => wsC4.aIndex / 6 + (wsC4.bufferedElements 0).vertexData.length / 2 + ix) ∧
     (∀ a ∈ (wsC4.bufferedElements 0).indices.map (fun ix => wsC4.aIndex / 6 + ix),
       ∀ b ∈ (wsC4.bufferedElements 1).indices.map
           (fun ix => wsC4.aIndex / 6 + (wsC4.bufferedElements 0).vertexData.length / 2 + ix),
       a < b)) :=
  ⟨⟨rfl, by decide, by decide, by decide⟩,
    C4_index_remap wsC4 0 rfl (by decide) (by decide) (by decide)⟩

/-- C5 witness at a concrete input (premultiplied texture at half opacity,
and the same tint on a straight-alpha texture). -/
theorem C5_packed_color_witness :
    ((0 : ℚ) ≤ 1 / 2 ∧ (11259375 : Nat) < 2 ^ 24) ∧
    ((min (1 / 2 : ℚ) 1 < 1 ∧ (1 : Nat) ≠ 0 →
        packedColor 1 11259375 (1 / 2) = premultiplyTint 11259375 (min (1 / 2) 1)) ∧
     (¬ (min (1 / 2 : ℚ) 1 < 1 ∧ (1 : Nat) ≠ 0) →
        packedColor 1 11259375 (1 / 2)
            = 11259375 + (⌊min (1 / 2 : ℚ) 1 * 255⌋).toNat * 2 ^ 24 ∧
          packedColor 1 11259375 (1 / 2) % 2 ^ 24 = 11259375 ∧
          packedColor 1 11259375 (1 / 2) / 2 ^ 24
            = (⌊min (1 / 2 : ℚ) 1 * 255⌋).toNat)) :=
  ⟨⟨by norm_num, by norm_num⟩,
    C5_packed_color 1 11259375 (1 / 2) (by norm_num) (by norm_num)⟩

/-- C7: submitting an element with a valid texture appends it.  If the
buffered vertex count plus this element's vertex count stays within `size`
(including meeting it exactly), no flush happens: the draw log, pools and
tick are untouched, the totals grow by the element's counts, the element and
its texture land at position `bufferSize`, and the element count grows by
one.  If it would exceed `size`, the same appending happens on top of
`flush s` instead. -/
theorem C7_render_buffers_element (s : RState) (e : Element)
    (hval : (s.texs e.texId).valid = true) :
    (s.vertexCount + e.vertexData.length / 2 ≤ s.size →
      (render s e).vertexCount = s.vertexCount + e.vertexData.length / 2 ∧
      (render s e).indexCount = s.indexCount + e.indices.length ∧
      (render s e).bufferSize = s.bufferSize + 1 ∧
      (render s e).bufferedElements s.bufferSize = e ∧
      (render s e).bufferedTextures s.bufferSize = e.texId ∧
      (render s e).drawLog = s.drawLog ∧
      (render s e).nextBufId = s.nextBufId ∧
      (render s e).globalBatch = s.globalBatch) ∧
    (s.size < s.vertexCount + e.vertexData.length / 2 →
      (render s e).vertexCount = (flush s).vertexCount + e.vertexData.length / 2 ∧
      (render s e).indexCount = (flush s).indexCount + e.indices.length ∧
      (render s e).bufferSize = (flush s).bufferSize + 1 ∧
      (render s e).bufferedElements (flush s).bufferSize = e ∧
      (render s e).bufferedTextures (flush s).bufferSize = e.texId ∧
      (render s e).drawLog = (flush s).drawLog) := by
  constructor
  · intro h
    have hc : ¬ (s.vertexCount + e.vertexData.length / 2 > s.size) := by omega
    refine ⟨?_, ?_, ?_, ?_, ?_, ?_, ?_, ?_⟩ <;>
      simp [render, hval, hc, Function.update_same]
  · intro h
    have hc : s.vertexCount + e.vertexData.length / 2 > s.size := h
    refine ⟨?_, ?_, ?_, ?_, ?_, ?_⟩ <;>
      simp [render, hval, hc, Function.update_same]

/-- Witness for C7 at a concrete input. -/
theorem C7_render_buffers_element_witness :
    (rsMany.texs (tinyEl 0 0 [0]).texId).valid = true ∧
    ((rsMany.vertexCount + (tinyEl 0 0 [0]).vertexData.length / 2 ≤ rsMany.size →
      (render rsMany (tinyEl 0 0 [0])).vertexCount
          = rsMany.vertexCount + (tinyEl 0 0 [0]).vertexData.length / 2 ∧
      (render rsMany (tinyEl 0 0 [0])).indexCount
          = rsMany.indexCount + (tinyEl 0 0 [0]).indices.length ∧
      (render rsMany (tinyEl 0 0 [0])).bufferSize = rsMany.bufferSize + 1 ∧
      (render rsMany (tinyEl 0 0 [0])).bufferedElements rsMany.bufferSize
          = tinyEl 0 0 [0] ∧
      (render rsMany (tinyEl 0 0 [0])).bufferedTextures rsMany.bufferSize
          = (tinyEl 0 0 [0]).texId ∧
      (render rsMany (tinyEl 0 0 [0])).drawLog = rsMany.drawLog ∧
      (render rsMany (tinyEl 0 0 [0])).nextBufId = rsMany.nextBufId ∧
      (render rsMany (tinyEl 0 0 [0])).globalBatch = rsMany.globalBatch) ∧
     (rsMany.size < rsMany.vertexCount + (tinyEl 0 0 [0]).vertexData.length / 2 →
      (render rsMany (tinyEl 0 0 [0])).vertexCount
          = (flush rsMany).vertexCount + (tinyEl 0 0 [0]).vertexData.length / 2 ∧
      (render rsMany (tinyEl 0 0 [0])).indexCount
          = (flush rsMany).indexCount + (tinyEl 0 0 [0]).indices.length ∧
      (render rsMany (tinyEl 0 0 [0])).bufferSize = (flush rsMany).bufferSize + 1 ∧
      (render rsMany (tinyEl 0 0 [0])).bufferedElements (flush rsMany).bufferSize
          = tinyEl 0 0 [0] ∧
      (render rsMany (tinyEl 0 0 [0])).bufferedTextures (flush rsMany).bufferSize
          = (tinyEl 0 0 [0]).texId ∧
      (render rsMany (tinyEl 0 0 [0])).drawLog = (flush rsMany).drawLog)) :=
  ⟨rfl, C7_render_buffers_element rsMany (tinyEl 0 0 [0]) rfl⟩

/-- `stampAndAppend` touches only `texs` and `textureArrays`. -/
theorem stampAndAppend_frame (s : RState) (texId tick cta : Nat) :
    (stampAndAppend s texId tick cta).bufferedElements = s.bufferedElements ∧
    (stampAndAppend s texId tick cta).bufferSize = s.bufferSize ∧
    (stampAndAppend s texId tick cta).aIndex = s.aIndex ∧
    (stampAndAppend s texId tick cta).iIndex = s.iIndex ∧
    (stampAndAppend s texId tick cta).attrData = s.attrData ∧
    (stampAndAppend s texId tick cta).indexData = s.indexData ∧
    (stampAndAppend s texId tick cta).attributeBuffer = s.attributeBuffer ∧
    (stampAndAppend s texId tick cta).indexBuffer = s.indexBuffer :=
  ⟨rfl, rfl, rfl, rfl, rfl, rfl, rfl, rfl⟩

/-- Cursor behaviour of `buildDrawCalls`: the element buffer, its size and
the current scratch buffers are untouched; the cursors grow by at most the
total write weight of the covered element range; and the
"scratch contents written = cursor" invariants are preserved. -/
theorem buildDrawCalls_growth (s : RState) (texA start finish : Nat) :
    (buildDrawCalls s texA start finish).bufferedElements = s.bufferedElements ∧
    (buildDrawCalls s texA start finish).bufferSize = s.bufferSize ∧
    (buildDrawCalls s texA start finish).attributeBuffer = s.attributeBuffer ∧
    (buildDrawCalls s texA start finish).indexBuffer = s.indexBuffer ∧
    (buildDrawCalls s texA start finish).aIndex
      ≤ s.aIndex + Wsum (attrWeight s.bufferedElements) start (finish - start) ∧
    (buildDrawCalls s texA start finish).iIndex
      ≤ s.iIndex + Wsum (idxWeight s.bufferedElements) start (finish - start) ∧
    (s.attrData.length = s.aIndex →
      (buildDrawCalls s texA start finish).attrData.length
        = (buildDrawCalls s texA start finish).aIndex) ∧
    (s.indexData.length = s.iIndex →
      (buildDrawCalls s texA start finish).indexData.length
        = (buildDrawCalls s texA start finish).iIndex) := by
  have hPB : packBufs s start finish
      = ⟨s.aIndex + Wsum (attrWeight s.bufferedElements) start (finish - start),
         s.iIndex + Wsum (idxWeight s.bufferedElements) start (finish - start),
         s.attrData ++ (packedCells s.texs s.bufferedElements (finish - start) start
           (s.aIndex / s.vertexSize)).1,
         s.indexData ++ (packedCells s.texs s.bufferedElements (finish - start) start
           (s.aIndex / s.vertexSize)).2⟩ := by
    rw [packBufs, packLoop_eq_cells, packedCells_fst_length, packedCells_snd_length]
  obtain ⟨dcs, d, h | h⟩ := buildDrawCalls_spec s texA start finish
  · rw [h]
    exact ⟨rfl, rfl, rfl, rfl, Nat.le_add_right _ _, Nat.le_add_right _ _,
      fun hl => hl, fun hl => hl⟩
  · rw [h, hPB]
    refine ⟨rfl, rfl, rfl, rfl, Nat.le_refl _, Nat.le_refl _, ?_, ?_⟩
    · intro hl
      simp only [List.length_append, hl, packedCells_fst_length]
    · intro hl
      simp only [List.length_append, hl, packedCells_snd_length]

/-- `boundArray` touches only `texs` (and there only `_batchLocation`). -/
theorem boundArray_frame (s : RState) (ta : Nat) :
    (boundArray s ta).bufferedElements = s.bufferedElements ∧
    (boundArray s ta).bufferSize = s.bufferSize ∧
    (boundArray s ta).aIndex = s.aIndex ∧
    (boundArray s ta).iIndex = s.iIndex ∧
    (boundArray s ta).attrData = s.attrData ∧
    (boundArray s ta).indexData = s.indexData ∧
    (boundArray s ta).attributeBuffer = s.attributeBuffer ∧
    (boundArray s ta).indexBuffer = s.indexBuffer := by
  obtain ⟨txs, h, -⟩ := boundArray_spec s ta
  rw [h]
  exact ⟨rfl, rfl, rfl, rfl, rfl, rfl, rfl, rfl⟩

/-- Cursor bound of the texture walk: the cursors grow by at most the total
write weight of the element prefix up to the final group start; the element
buffer, its size and the scratch buffers are untouched, and the
"written = cursor" invariants are preserved. -/
theorem btLoop_cursors (elems : Nat → Element) :
    ∀ fuel i tick cta start (s : RState) s1 tick1 cta1 start1,
      btLoop fuel i tick cta start s = (s1, tick1, cta1, start1) →
      s.bufferedElements = elems →
      start ≤ i →
      s1.bufferedElements = elems ∧
      s1.bufferSize = s.bufferSize ∧
      start ≤ start1 ∧ start1 ≤ i + fuel ∧
      s1.aIndex ≤ s.aIndex + Wsum (attrWeight elems) start (start1 - start) ∧
      s1.iIndex ≤ s.iIndex + Wsum (idxWeight elems) start (start1 - start) ∧
      s1.attributeBuffer = s.attributeBuffer ∧
      s1.indexBuffer = s.indexBuffer ∧
      (s.attrData.length = s.aIndex → s1.attrData.length = s1.aIndex) ∧
      (s.indexData.length = s.iIndex → s1.indexData.length = s1.iIndex) := by
  intro fuel
  induction fuel with
  | zero =>
    intro i tick cta start s s1 tick1 cta1 start1 heq hel hsi
    simp only [btLoop, Prod.mk.injEq] at heq
    obtain ⟨hs, -, -, hst⟩ := heq
    subst hs; subst hst
    exact ⟨hel, rfl, Nat.le_refl _, by omega, Nat.le_add_right _ _,
      Nat.le_add_right _ _, rfl, rfl, fun hl => hl, fun hl => hl⟩
  | succ fuel ih =>
    intro i tick cta start s s1 tick1 cta1 start1 heq hel hsi
    simp only [btLoop] at heq
    by_cases hskip : (s.texs (s.bufferedTextures i)).batchEnabled = tick
    · rw [if_pos hskip] at heq
      obtain ⟨c1, c2, c3, c4, c5, c6, c7, c8, c9, c10⟩ :=
        ih (i + 1) tick cta start s s1 tick1 cta1 start1 heq hel (by omega)
      exact ⟨c1, c2, c3, by omega, c5, c6, c7, c8, c9, c10⟩
    · rw [if_neg hskip] at heq
      by_cases hfull : (s.textureArrays cta).count ≥ s.MAX_TEXTURES
      · rw [if_pos hfull] at heq
        obtain ⟨b1, b2, b3, b4, b5, b6, b7, b8⟩ := boundArray_frame s cta
        obtain ⟨g1, g2, g3, g4, g5, g6, g7, g8⟩ :=
          buildDrawCalls_growth (boundArray s cta) cta start i
        rw [b1, hel] at g1
        rw [b2] at g2
        rw [b7] at g3
        rw [b8] at g4
        rw [b1, hel, b3] at g5
        rw [b1, hel, b4] at g6
        obtain ⟨f1, f2, f3, f4, f5, f6, f7, f8⟩ :=
          stampAndAppend_frame (buildDrawCalls (boundArray s cta) cta start i)
            (s.bufferedTextures i) (tick + 1) (cta + 1)
        obtain ⟨c1, c2, c3, c4, c5, c6, c7, c8, c9, c10⟩ :=
          ih (i + 1) (tick + 1) (cta + 1) i _ s1 tick1 cta1 start1 heq
            (f1.trans g1) (by omega)
        rw [f3] at c5
        rw [f4] at c6
        have hsplit : Wsum (attrWeight elems) start (start1 - start)
            = Wsum (attrWeight elems) start (i - start)
              + Wsum (attrWeight elems) i (start1 - i) := by
          have h1 : start1 - start = (i - start) + (start1 - i) := by omega
          have h2 : start + (i - start) = i := by omega
          rw [h1, Wsum_split, h2]
        have hsplitI : Wsum (idxWeight elems) start (start1 - start)
            = Wsum (idxWeight elems) start (i - start)
              + Wsum (idxWeight elems) i (start1 - i) := by
          have h1 : start1 - start = (i - start) + (start1 - i) := by omega
          have h2 : start + (i - start) = i := by omega
          rw [h1, Wsum_split, h2]
        refine ⟨c1, c2.trans (f2.trans g2), by omega, by omega, ?_, ?_,
          c7.trans (f7.trans g3), c8.trans (f8.trans g4), ?_, ?_⟩
        · rw [hsplit]; omega
        · rw [hsplitI]; omega
        · intro hl
          refine c9 ?_
          rw [f5, f3]
          refine g7 ?_
          rw [b5, b3]
          exact hl
        · intro hl
          refine c10 ?_
          rw [f6, f4]
          refine g8 ?_
          rw [b6, b4]
          exact hl
      · rw [if_neg hfull] at heq
        obtain ⟨f1, f2, f3, f4, f5, f6, f7, f8⟩ :=
          stampAndAppend_frame s (s.bufferedTextures i) tick cta
        obtain ⟨c1, c2, c3, c4, c5, c6, c7, c8, c9, c10⟩ :=
          ih (i + 1) tick cta start _ s1 tick1 cta1 start1 heq
            (f1.trans hel) (by omega)
        rw [f3] at c5
        rw [f4] at c6
        refine ⟨c1, c2.trans f2, c3, by omega, c5, c6,
          c7.trans f7, c8.trans f8, ?_, ?_⟩
        · intro hl
          refine c9 ?_
          rw [f5, f3]
          exact hl
        · intro hl
          refine c10 ?_
          rw [f6, f4]
          exact hl

/-- Cursor bound of `buildTexturesAndDrawCalls`: starting from zeroed
cursors and empty scratch contents, the final cursors are at most the total
write weight of all buffered elements, the scratch contents match the
cursors exactly, and the acquired scratch buffers are untouched. -/
theorem btdc_cursors (s : RState) (h0a : s.aIndex = 0) (h0i : s.iIndex = 0)
    (hLa : s.attrData.length = 0) (hLi : s.indexData.length = 0) :
    (buildTexturesAndDrawCalls s).aIndex
      ≤ Wsum (attrWeight s.bufferedElements) 0 s.bufferSize ∧
    (buildTexturesAndDrawCalls s).iIndex
      ≤ Wsum (idxWeight s.bufferedElements) 0 s.bufferSize ∧
    (buildTexturesAndDrawCalls s).attrData.length
      = (buildTexturesAndDrawCalls s).aIndex ∧
    (buildTexturesAndDrawCalls s).indexData.length
      = (buildTexturesAndDrawCalls s).iIndex ∧
    (buildTexturesAndDrawCalls s).attributeBuffer = s.attributeBuffer ∧
    (buildTexturesAndDrawCalls s).indexBuffer = s.indexBuffer := by
  obtain ⟨⟨s1, tick1, cta1, start1⟩, hbt⟩ :
      ∃ r, btLoop s.bufferSize 0 (s.globalBatch + 1) 0 0 s = r := ⟨_, rfl⟩
  obtain ⟨c1, c2, c3, c4, c5, c6, c7, c8, c9, c10⟩ :=
    btLoop_cursors s.bufferedElements s.bufferSize 0 (s.globalBatch + 1) 0 0 s
      s1 tick1 cta1 start1 hbt rfl (Nat.le_refl 0)
  rw [h0a] at c5
  rw [h0i] at c6
  have hc9 : s1.attrData.length = s1.aIndex := c9 (by rw [h0a, hLa])
  have hc10 : s1.indexData.length = s1.iIndex := c10 (by rw [h0i, hLi])
  have hW5 : s1.aIndex ≤ Wsum (attrWeight s.bufferedElements) 0 start1 := by
    simpa using c5
  have hW6 : s1.iIndex ≤ Wsum (idxWeight s.bufferedElements) 0 start1 := by
    simpa using c6
  have hstb : start1 ≤ s.bufferSize := by omega
  have hWa : Wsum (attrWeight s.bufferedElements) 0 start1
        + Wsum (attrWeight s.bufferedElements) start1 (s1.bufferSize - start1)
      = Wsum (attrWeight s.bufferedElements) 0 s.bufferSize := by
    rw [c2]
    have h1 : s.bufferSize = start1 + (s.bufferSize - start1) := by omega
    have h2 : (0 : Nat) + start1 = start1 := by omega
    calc Wsum (attrWeight s.bufferedElements) 0 start1
          + Wsum (attrWeight s.bufferedElements) start1 (s.bufferSize - start1)
        = Wsum (attrWeight s.bufferedElements) 0 start1
          + Wsum (attrWeight s.bufferedElements) (0 + start1) (s.bufferSize - start1) := by
          rw [h2]
      _ = Wsum (attrWeight s.bufferedElements) 0 (start1 + (s.bufferSize - start1)) := by
          rw [Wsum_split]
      _ = Wsum (attrWeight s.bufferedElements) 0 s.bufferSize := by rw [← h1]
  have hWi : Wsum (idxWeight s.bufferedElements) 0 start1
        + Wsum (idxWeight s.bufferedElements) start1 (s1.bufferSize - start1)
      = Wsum (idxWeight s.bufferedElements) 0 s.bufferSize := by
    rw [c2]
    have h1 : s.bufferSize = start1 + (s.bufferSize - start1) := by omega
    have h2 : (0 : Nat) + start1 = start1 := by omega
    calc Wsum (idxWeight s.bufferedElements) 0 start1
          + Wsum (idxWeight s.bufferedElements) start1 (s.bufferSize - start1)
        = Wsum (idxWeight s.bufferedElements) 0 start1
          + Wsum (idxWeight s.bufferedElements) (0 + start1) (s.bufferSize - start1) := by
          rw [h2]
      _ = Wsum (idxWeight s.bufferedElements) 0 (start1 + (s.bufferSize - start1)) := by
          rw [Wsum_split]
      _ = Wsum (idxWeight s.bufferedElements) 0 s.bufferSize := by rw [← h1]
  have hres : buildTexturesAndDrawCalls s
      = if (s1.textureArrays cta1).count > 0 then
          { buildDrawCalls (boundArray s1 cta1) cta1 start1 s1.bufferSize with
              globalBatch := tick1 + 1 }
        else { s1 with globalBatch := tick1 } := by
    simp only [buildTexturesAndDrawCalls, hbt]
  by_cases hlast : (s1.textureArrays cta1).count > 0
  · rw [if_pos hlast] at hres
    obtain ⟨b1, b2, b3, b4, b5, b6, b7, b8⟩ := boundArray_frame s1 cta1
    obtain ⟨g1, g2, g3, g4, g5, g6, g7, g8⟩ :=
      buildDrawCalls_growth (boundArray s1 cta1) cta1 start1 s1.bufferSize
    rw [b1, c1] at g5
    rw [b3] at g5
    rw [b1, c1] at g6
    rw [b4] at g6
    rw [hres]
    refine ⟨?_, ?_, ?_, ?_, ?_, ?_⟩
    · show (buildDrawCalls (boundArray s1 cta1) cta1 start1 s1.bufferSize).aIndex ≤ _
      omega
    · show (buildDrawCalls (boundArray s1 cta1) cta1 start1 s1.bufferSize).iIndex ≤ _
      omega
    · show (buildDrawCalls (boundArray s1 cta1) cta1 start1 s1.bufferSize).attrData.length
        = (buildDrawCalls (boundArray s1 cta1) cta1 start1 s1.bufferSize).aIndex
      refine g7 ?_
      rw [b5, b3]
      exact hc9
    · show (buildDrawCalls (boundArray s1 cta1) cta1 start1 s1.bufferSize).indexData.length
        = (buildDrawCalls (boundArray s1 cta1) cta1 start1 s1.bufferSize).iIndex
      refine g8 ?_
      rw [b6, b4]
      exact hc10
    · show (buildDrawCalls (boundArray s1 cta1) cta1 start1 s1.bufferSize).attributeBuffer
        = s.attributeBuffer
      rw [g3, b7]
      exact c7
    · show (buildDrawCalls (boundArray s1 cta1) cta1 start1 s1.bufferSize).indexBuffer
        = s.indexBuffer
      rw [g4, b8]
      exact c8
  · rw [if_neg hlast] at hres
    rw [hres]
    refine ⟨?_, ?_, hc9, hc10, c7, c8⟩
    · show s1.aIndex ≤ _
      omega
    · show s1.iIndex ≤ _
      omega

/-- C10: a flush's scratch buffers are always large enough for everything
the flush writes.  From consistent running totals (as `render` maintains:
`vertexCount`/`indexCount` are the sums over the buffered elements, with
even `vertexData` lengths) and a well-formed buffer pool, the flush acquires
an attribute buffer of at least `vertexCount * vertexSize` floats and an
index buffer of at least `indexCount` slots, and every write stays in
bounds: the final cursors are at most those totals, and the scratch contents
written match the cursors exactly (writes land at the cursor positions
`0 ..` cursor). -/
theorem C10_flush_buffer_bounds (s : RState)
    (hv0 : 0 < s.vertexCount)
    (hvs : s.vertexSize = 6)
    (heven : ∀ i, i < s.bufferSize → (s.bufferedElements i).vertexData.length % 2 = 0)
    (hsumv : s.vertexCount
      = Wsum (fun i => (s.bufferedElements i).vertexData.length / 2) 0 s.bufferSize)
    (hsumi : s.indexCount
      = Wsum (fun i => (s.bufferedElements i).indices.length) 0 s.bufferSize)
    (hwfa : ∀ k b, s.aBuffers k = some b → b.cap = k * s.vertexSize)
    (hwfi : ∀ k b, s.iBuffers k = some b → b.cap = 2 ^ k * 12) :
    (flush s).aIndex ≤ 6 * s.vertexCount ∧
    (flush s).iIndex ≤ s.indexCount ∧
    (flush s).attrData.length = (flush s).aIndex ∧
    (flush s).indexData.length = (flush s).iIndex ∧
    6 * s.vertexCount ≤ (flush s).attributeBuffer.cap ∧
    s.indexCount ≤ (flush s).indexBuffer.cap := by
  have hne : ¬ s.vertexCount = 0 := by omega
  obtain ⟨hcapA, ab1, ni1, hstA⟩ := getAttributeBuffer_spec s s.vertexCount hwfa
  have hwfi2 : ∀ k b,
      (getAttributeBuffer s s.vertexCount).2.iBuffers k = some b → b.cap = 2 ^ k * 12 := by
    intro k b hk
    rw [hstA] at hk
    exact hwfi k b hk
  obtain ⟨hcapI, ib2, ni2, hstI⟩ :=
    getIndexBuffer_spec (getAttributeBuffer s s.vertexCount).2 s.indexCount hwfi2
  set S3 : RState :=
    { (getIndexBuffer (getAttributeBuffer s s.vertexCount).2 s.indexCount).2 with
        attributeBuffer := (getAttributeBuffer s s.vertexCount).1,
        indexBuffer := (getIndexBuffer (getAttributeBuffer s s.vertexCount).2 s.indexCount).1,
        aIndex := 0, iIndex := 0, dcIndex := 0, attrData := [], indexData := [] }
    with hS3
  have hflush : flush s
      = { drawBatches (buildTexturesAndDrawCalls S3) with
            bufferSize := 0, vertexCount := 0, indexCount := 0 } := by
    rw [flush, if_neg hne]
  have hS3el : S3.bufferedElements = s.bufferedElements := by
    rw [hS3, hstI, hstA]
  have hS3sz : S3.bufferSize = s.bufferSize := by
    rw [hS3, hstI, hstA]
  obtain ⟨d1, d2, d3, d4, d5, d6⟩ := btdc_cursors S3 rfl rfl rfl rfl
  rw [hS3el, hS3sz] at d1 d2
  obtain ⟨tas, dl, hdb⟩ := drawBatches_spec (buildTexturesAndDrawCalls S3)
  have hfa : (flush s).aIndex = (buildTexturesAndDrawCalls S3).aIndex := by
    rw [hflush, hdb]
  have hfi : (flush s).iIndex = (buildTexturesAndDrawCalls S3).iIndex := by
    rw [hflush, hdb]
  have hfal : (flush s).attrData = (buildTexturesAndDrawCalls S3).attrData := by
    rw [hflush, hdb]
  have hfil : (flush s).indexData = (buildTexturesAndDrawCalls S3).indexData := by
    rw [hflush, hdb]
  have hfab : (flush s).attributeBuffer = (getAttributeBuffer s s.vertexCount).1 := by
    rw [hflush, hdb]
    exact d5
  have hfib : (flush s).indexBuffer
      = (getIndexBuffer (getAttributeBuffer s s.vertexCount).2 s.indexCount).1 := by
    rw [hflush, hdb]
    exact d6
  have hWv : Wsum (attrWeight s.bufferedElements) 0 s.bufferSize = 6 * s.vertexCount := by
    have h1 : ∀ i, 0 ≤ i → i < 0 + s.bufferSize →
        attrWeight s.bufferedElements i
          = 6 * ((s.bufferedElements i).vertexData.length / 2) := by
      intro i _ hi
      have he := heven i (by omega)
      simp only [attrWeight]
      omega
    rw [Wsum_congrOn _ _ s.bufferSize 0 h1, Wsum_const_mul 6 _ s.bufferSize 0, ← hsumv]
  have hWn : Wsum (idxWeight s.bufferedElements) 0 s.bufferSize = s.indexCount := by
    rw [hsumi]
    rfl
  have hgeA := nextPow2_ge ((s.vertexCount + 7) / 8)
  have hgeI := nextPow2_ge ((s.indexCount + 11) / 12)
  refine ⟨?_, ?_, ?_, ?_, ?_, ?_⟩
  · rw [hfa, ← hWv]
    exact d1
  · rw [hfi, ← hWn]
    exact d2
  · rw [hfal, hfa]
    exact d3
  · rw [hfil, hfi]
    exact d4
  · rw [hfab, hcapA, hvs]
    omega
  · rw [hfib, hcapI]
    omega

/-- Witness for C10 at a concrete input. -/
theorem C10_flush_buffer_bounds_witness :
    (0 < wsC10.vertexCount ∧ wsC10.vertexSize = 6 ∧
     (∀ i, i < wsC10.bufferSize →
        (wsC10.bufferedElements i).vertexData.length % 2 = 0) ∧
     wsC10.vertexCount
        = Wsum (fun i => (wsC10.bufferedElements i).vertexData.length / 2) 0
            wsC10.bufferSize ∧
     wsC10.indexCount
        = Wsum (fun i => (wsC10.bufferedElements i).indices.length) 0
            wsC10.bufferSize) ∧
    ((flush wsC10).aIndex ≤ 6 * wsC10.vertexCount ∧
     (flush wsC10).iIndex ≤ wsC10.indexCount ∧
     (flush wsC10).attrData.length = (flush wsC10).aIndex ∧
     (flush wsC10).indexData.length = (flush wsC10).iIndex ∧
     6 * wsC10.vertexCount ≤ (flush wsC10).attributeBuffer.cap ∧
     wsC10.indexCount ≤ (flush wsC10).indexBuffer.cap) :=
  ⟨⟨by decide, rfl, by decide, by decide, by decide⟩,
    C10_flush_buffer_bounds wsC10 (by decide) rfl (by decide) (by decide) (by decide)
      (fun k b h => Option.noConfusion h) (fun k b h => Option.noConfusion h)⟩

end PixiBatch
